import Mathlib

/-!
Car rental booking core: store, availability check and booking screen.

A shallow embedding of `CarRentalApp/src/services/bookingService.js` and of the
date selection / confirmation logic of
`CarRentalApp/src/screens/Booking/BookingScreen.js`.

Modelling conventions.

* A calendar date string `YYYY-MM-DD` is represented by its day number, the
  number of days since 1970-01-01 (an `Int`).  `new Date(s)` on such a string is
  UTC midnight of that day, so its millisecond value is the day number times
  `1000 * 60 * 60 * 24`; this is `newDate`.  For fixed-width ISO strings the
  string order used by `onDayPress` is the order of the day numbers.
  Day numbers used in examples: 19884 = 2024-06-10, 19889 = 2024-06-15,
  19890 = 2024-06-16, 19894 = 2024-06-20, 19905 = 2024-07-01,
  19907 = 2024-07-03.
* The empty string of an unset React date state is `none`.
* The module level array `sampleBookings` is an explicit `List Booking`
  threaded through every operation; `push` appends at the end.
* Clock readings (`Date.now()`, `new Date().toISOString()`) are explicit
  parameters, in milliseconds.
* The `async` functions have no suspension point that touches the store, so each
  call is one atomic function of the store.  Their `catch` branches are dead in
  this in-memory implementation and are left out, except where a result flag is
  inspected by a caller (`getCarBookings` / `checkDateAvailability`).
-/

namespace CarRental

/-! ## Data model -/

/-- The `carDetails` snapshot stored in a booking. -/
structure CarDetails where
  brand : String
  model : String
  type : String
  deriving DecidableEq, Repr

/-- The `tripDetails` snapshot stored in a booking. -/
structure TripDetails where
  source : String
  destination : String
  passengers : Nat
  days : Nat
  estimatedDistance : Nat
  estimatedDuration : String
  deriving DecidableEq, Repr

/-- A record of `sampleBookings`. -/
structure Booking where
  id : String
  userId : String
  carId : String
  carDetails : CarDetails
  tripDetails : TripDetails
  startDate : Int
  endDate : Int
  days : Nat
  totalPrice : Nat
  notes : String
  status : String
  createdAt : Nat
  updatedAt : Option Nat
  deriving DecidableEq, Repr

/-- The argument `bookingData` of `createBooking`: a booking whose `id` and
`updatedAt` properties may be absent. -/
structure BookingData where
  id : Option String
  userId : String
  carId : String
  carDetails : CarDetails
  tripDetails : TripDetails
  startDate : Int
  endDate : Int
  days : Nat
  totalPrice : Nat
  notes : String
  status : String
  createdAt : Nat
  updatedAt : Option Nat
  deriving DecidableEq, Repr

/-- Result object of `createBooking`. -/
structure CreateResult where
  success : Bool
  bookingId : String
  deriving DecidableEq, Repr

/-- Result object of the list queries (`getCarBookings`, `getUserBookings`). -/
structure BookingsResult where
  success : Bool
  bookings : List Booking
  error : Option String
  deriving DecidableEq, Repr

/-- Result object of `checkDateAvailability`. -/
structure AvailabilityResult where
  available : Bool
  error : Option String
  deriving DecidableEq, Repr

/-- Result object of the status and field updates. -/
structure UpdateResult where
  success : Bool
  error : Option String
  deriving DecidableEq, Repr

/-! ## Dates -/

/-- Milliseconds per day, `1000 * 60 * 60 * 24`. -/
def msPerDay : Nat := 1000 * 60 * 60 * 24

/-- The millisecond value of `new Date(s)` for the calendar date with day number `d`. -/
def newDate (d : Int) : Int := d * (msPerDay : Int)

/-- The value of `Math.ceil(x / m)` for a non-negative integer `x` and positive `m`. -/
def ceilDiv (x m : Nat) : Nat := (x + (m - 1)) / m

/-! ## bookingService -/

/-- The template string of line 28, with `now = Date.now()`. -/
def mkBookingId (now : Nat) : String := "booking-" ++ toString now

/-- The object literal of lines 29-32: the spread of `bookingData` comes after `id`,
so an `id` property of `bookingData` wins over the generated one. -/
def newBooking (bookingId : String) (d : BookingData) : Booking :=
  { id := d.id.getD bookingId
    userId := d.userId
    carId := d.carId
    carDetails := d.carDetails
    tripDetails := d.tripDetails
    startDate := d.startDate
    endDate := d.endDate
    days := d.days
    totalPrice := d.totalPrice
    notes := d.notes
    status := d.status
    createdAt := d.createdAt
    updatedAt := d.updatedAt }

/-- The function `createBooking`: lines 20-39. -/
def createBooking (store : List Booking) (now : Nat) (bookingData : BookingData) :
    List Booking × CreateResult :=
  let bookingId := mkBookingId now
  (store ++ [newBooking bookingId bookingData], { success := true, bookingId := bookingId })

/-- The function `getBookingById`: lines 42-62. -/
def getBookingById (store : List Booking) (bookingId : String) : Except String Booking :=
  match store.find? (fun b => b.id == bookingId) with
  | some booking => .ok booking
  | none => .error "Booking not found"

/-- Replace the status and the `updatedAt` stamp of one record (lines 118-119). -/
def setStatus (b : Booking) (status : String) (now : Nat) : Booking :=
  { b with status := status, updatedAt := some now }

/-- The function `updateBookingStatus`: lines 108-127. -/
def updateBookingStatus (store : List Booking) (now : Nat) (bookingId : String)
    (status : String) : List Booking × UpdateResult :=
  match store.findIdx? (fun b => b.id == bookingId) with
  | some bookingIndex =>
      (store.modify (fun b => setStatus b status now) bookingIndex,
        { success := true, error := none })
  | none => (store, { success := false, error := some "Booking not found" })

/-- The function `cancelBooking`: lines 155-162. -/
def cancelBooking (store : List Booking) (now : Nat) (bookingId : String) :
    List Booking × UpdateResult :=
  updateBookingStatus store now bookingId "cancelled"

/-- The comparator of line 198 is non-positive: `a` may stay before `b`. -/
def startDateLE (a b : Booking) : Prop := newDate a.startDate - newDate b.startDate ≤ 0

instance : DecidableRel startDateLE := fun a b =>
  inferInstanceAs (Decidable (newDate a.startDate - newDate b.startDate ≤ 0))

/-- The function `getCarBookings`: lines 182-204 (`Array.prototype.sort` is stable). -/
def getCarBookings (store : List Booking) (carId : String) : BookingsResult :=
  let carBookings :=
    (store.filter (fun b => b.carId == carId)).insertionSort startDateLE
  { success := true, bookings := carBookings, error := none }

/-- The function `checkDateAvailability`: lines 207-231. -/
def checkDateAvailability (store : List Booking) (carId : String) (startDate endDate : Int) :
    AvailabilityResult :=
  let result := getCarBookings store carId
  if !result.success then
    { available := false, error := result.error }
  else
    let start := newDate startDate
    let finish := newDate endDate
    let hasConflict := result.bookings.any (fun booking =>
      if booking.status == "cancelled" then false
      else
        let bookingStart := newDate booking.startDate
        let bookingEnd := newDate booking.endDate
        decide (start ≤ bookingEnd) && decide (finish ≥ bookingStart))
    { available := !hasConflict, error := none }

/-- The comparator of line 81 is non-positive: `a` may stay before `b`. -/
def createdAtGE (a b : Booking) : Prop := (b.createdAt : Int) - (a.createdAt : Int) ≤ 0

instance : DecidableRel createdAtGE := fun a b =>
  inferInstanceAs (Decidable ((b.createdAt : Int) - (a.createdAt : Int) ≤ 0))

/-- The function `getUserBookings`: lines 65-87 (`Array.prototype.sort` is stable). -/
def getUserBookings (store : List Booking) (userId : String) : BookingsResult :=
  let userBookings :=
    (store.filter (fun b => b.userId == userId)).insertionSort createdAtGE
  { success := true, bookings := userBookings, error := none }

/-- The argument `updates` of `updateBooking`: any subset of the properties of a
booking; `none` is a property that `updates` does not name. -/
structure BookingUpdates where
  id : Option String
  userId : Option String
  carId : Option String
  carDetails : Option CarDetails
  tripDetails : Option TripDetails
  startDate : Option Int
  endDate : Option Int
  days : Option Nat
  totalPrice : Option Nat
  notes : Option String
  status : Option String
  createdAt : Option Nat
  updatedAt : Option Nat
  deriving DecidableEq, Repr

/-- The object literal of lines 140-144: the old record, overridden by the spread of
`updates`, overridden by the `updatedAt` stamp. -/
def mergeUpdates (b : Booking) (updates : BookingUpdates) (now : Nat) : Booking :=
  { id := updates.id.getD b.id
    userId := updates.userId.getD b.userId
    carId := updates.carId.getD b.carId
    carDetails := updates.carDetails.getD b.carDetails
    tripDetails := updates.tripDetails.getD b.tripDetails
    startDate := updates.startDate.getD b.startDate
    endDate := updates.endDate.getD b.endDate
    days := updates.days.getD b.days
    totalPrice := updates.totalPrice.getD b.totalPrice
    notes := updates.notes.getD b.notes
    status := updates.status.getD b.status
    createdAt := updates.createdAt.getD b.createdAt
    updatedAt := some now }

/-- The function `updateBooking`: lines 130-152. -/
def updateBooking (store : List Booking) (now : Nat) (bookingId : String)
    (updates : BookingUpdates) : List Booking × UpdateResult :=
  match store.findIdx? (fun b => b.id == bookingId) with
  | some bookingIndex =>
      (store.modify (fun b => mergeUpdates b updates now) bookingIndex,
        { success := true, error := none })
  | none => (store, { success := false, error := some "Booking not found" })

/-- The function `deleteBooking`: lines 165-179. -/
def deleteBooking (store : List Booking) (bookingId : String) : List Booking × UpdateResult :=
  (store.filter (fun b => b.id != bookingId), { success := true, error := none })

/-! ## bookingService: the read operations with the store threaded through

The same four read functions once more, statement by statement, with the array
`sampleBookings` passed in and handed back, so that what each array method does to
its receiver is explicit. -/

/-- `Array.prototype.find`: the receiver is left as it is; the first match is returned. -/
def arrayFind (receiver : List Booking) (p : Booking → Bool) :
    List Booking × Option Booking :=
  (receiver, receiver.find? p)

/-- `Array.prototype.filter`: the receiver is left as it is; a new array is returned. -/
def arrayFilter (receiver : List Booking) (p : Booking → Bool) :
    List Booking × List Booking :=
  (receiver, receiver.filter p)

/-- `Array.prototype.sort`: the receiver itself is sorted (stably) and returned. -/
def arraySort (receiver : List Booking) (r : Booking → Booking → Prop) [DecidableRel r] :
    List Booking × List Booking :=
  (receiver.insertionSort r, receiver.insertionSort r)

/-- `Array.prototype.some`: the receiver is left as it is. -/
def arraySome (receiver : List Booking) (p : Booking → Bool) : List Booking × Bool :=
  (receiver, receiver.any p)

namespace Threaded

/-- The function `getBookingById`: lines 42-62; the first component is `sampleBookings`
after the call. -/
def getBookingById (store : List Booking) (bookingId : String) :
    List Booking × Except String Booking :=
  let found := arrayFind store (fun b => b.id == bookingId)
  match found.2 with
  | some booking => (found.1, .ok booking)
  | none => (found.1, .error "Booking not found")

/-- The function `getUserBookings`: lines 65-87; `sort` is called on the array that
`filter` returned. -/
def getUserBookings (store : List Booking) (userId : String) :
    List Booking × BookingsResult :=
  let filtered := arrayFilter store (fun b => b.userId == userId)
  let sorted := arraySort filtered.2 createdAtGE
  (filtered.1, { success := true, bookings := sorted.2, error := none })

/-- The function `getCarBookings`: lines 182-204; `sort` is called on the array that
`filter` returned. -/
def getCarBookings (store : List Booking) (carId : String) : List Booking × BookingsResult :=
  let filtered := arrayFilter store (fun b => b.carId == carId)
  let sorted := arraySort filtered.2 startDateLE
  (filtered.1, { success := true, bookings := sorted.2, error := none })

/-- The function `checkDateAvailability`: lines 207-231; `some` is called on the array
that `getCarBookings` returned. -/
def checkDateAvailability (store : List Booking) (carId : String) (startDate endDate : Int) :
    List Booking × AvailabilityResult :=
  let got := getCarBookings store carId
  if !got.2.success then
    (got.1, { available := false, error := got.2.error })
  else
    let start := newDate startDate
    let finish := newDate endDate
    let hasConflict := arraySome got.2.bookings (fun booking =>
      if booking.status == "cancelled" then false
      else
        let bookingStart := newDate booking.startDate
        let bookingEnd := newDate booking.endDate
        decide (start ≤ bookingEnd) && decide (finish ≥ bookingStart))
    (got.1, { available := !hasConflict.2, error := none })

end Threaded

/-! ## carService -/

/-- The function `checkAvailability` of `carService.js`: lines 225-234.  Its body is the
single statement `return { available: true }`; the module has no access to
`sampleBookings`. -/
def carService.checkAvailability (_carId : String) (_startDate _endDate : Int) :
    AvailabilityResult :=
  { available := true, error := none }

/-! ## BookingScreen -/

/-- A car record as supplied by the catalogue through `route.params`. -/
structure Car where
  id : String
  brand : String
  model : String
  type : String
  pricePerDay : Nat
  deriving DecidableEq, Repr

/-- The trip details entered on the trip screen (`days` is the length the user typed
there, not the length of the range selected on the booking screen). -/
structure Trip where
  source : String
  destination : String
  passengers : Nat
  days : Nat
  deriving DecidableEq, Repr

/-- The `route.params` of the booking screen. -/
structure RouteParams where
  car : Car
  tripDetails : Trip
  estimatedDistance : Nat
  estimatedDuration : String
  totalPrice : Nat
  deriving DecidableEq, Repr

/-- The React state of the booking screen that the logic reads (`markedDates` and
`loading` only drive the display). -/
structure ScreenState where
  startDate : Option Int
  endDate : Option Int
  notes : String
  deriving DecidableEq, Repr

/-- The initial state: both dates are the empty string. -/
def initialState : ScreenState := { startDate := none, endDate := none, notes := "" }

/-- The handler `onDayPress`: lines 31-51; `day` is `day.dateString`. -/
def onDayPress (st : ScreenState) (day : Int) : ScreenState :=
  match st.startDate, st.endDate with
  | none, _ => { st with startDate := some day, endDate := none }
  | some _, some _ => { st with startDate := some day, endDate := none }
  | some startDate, none =>
      if day < startDate then st
      else { st with endDate := some day }

/-- The function `calculateDays`: lines 74-81. -/
def calculateDays (st : ScreenState) : Nat :=
  match st.startDate, st.endDate with
  | some startDate, some endDate =>
      let start := newDate startDate
      let finish := newDate endDate
      let diffTime := (finish - start).natAbs
      let diffDays := ceilDiv diffTime msPerDay
      if diffDays = 0 then 1 else diffDays
  | _, _ => 0

/-- The record that `handleConfirmBooking` (lines 83-135) passes to `createBooking`
when the user presses Confirm in the dialog; `none` when the date guard of
line 84 returns early.  `uid` is `user.uid`, `createdAt` the clock reading. -/
def handleConfirmBooking (p : RouteParams) (uid : String) (st : ScreenState)
    (createdAt : Nat) : Option BookingData :=
  match st.startDate, st.endDate with
  | some startDate, some endDate =>
      let days := calculateDays st
      let finalPrice := p.car.pricePerDay * days
      some
        { id := none
          userId := uid
          carId := p.car.id
          carDetails := { brand := p.car.brand, model := p.car.model, type := p.car.type }
          tripDetails :=
            { source := p.tripDetails.source
              destination := p.tripDetails.destination
              passengers := p.tripDetails.passengers
              days := p.tripDetails.days
              estimatedDistance := p.estimatedDistance
              estimatedDuration := p.estimatedDuration }
          startDate := startDate
          endDate := endDate
          days := days
          totalPrice := finalPrice
          notes := st.notes
          status := "confirmed"
          createdAt := createdAt
          updatedAt := none }
  | _, _ => none

/-- The screen state after the calendar presses `presses`, starting from the initial
state, with the notes field edited to `notes` (`setNotes`). -/
def screenAfter (presses : List Int) (notes : String) : ScreenState :=
  { presses.foldl onDayPress initialState with notes := notes }

/-! ## Properties of stores -/

/-- The closed-interval conflict test of line 223 between two stored bookings. -/
def Overlap (a b : Booking) : Prop := a.startDate ≤ b.endDate ∧ a.endDate ≥ b.startDate

instance (a b : Booking) : Decidable (Overlap a b) :=
  inferInstanceAs (Decidable (a.startDate ≤ b.endDate ∧ a.endDate ≥ b.startDate))

/-- Two records may coexist: if they are non-cancelled bookings of one car then their
ranges do not overlap. -/
def Compatible (a b : Booking) : Prop :=
  a.carId = b.carId → a.status ≠ "cancelled" → b.status ≠ "cancelled" → ¬ Overlap a b

instance (a b : Booking) : Decidable (Compatible a b) :=
  inferInstanceAs (Decidable (a.carId = b.carId → a.status ≠ "cancelled" →
    b.status ≠ "cancelled" → ¬ Overlap a b))

/-- No two distinct (differently placed) non-cancelled records of the same car have
overlapping ranges. -/
def NoDoubleBooking (store : List Booking) : Prop := store.Pairwise Compatible

instance (store : List Booking) : Decidable (NoDoubleBooking store) :=
  inferInstanceAs (Decidable (store.Pairwise Compatible))

/-- The non-cancelled bookings of car `carId` that hold the calendar day `d`. -/
def holders (store : List Booking) (carId : String) (d : Int) : List Booking :=
  store.filter (fun b =>
    b.carId == carId && b.status != "cancelled" && decide (b.startDate ≤ d) &&
      decide (d ≤ b.endDate))

/-- Stores reachable from the empty store by bookings confirmed on the booking screen:
calendar presses from the initial state, then Confirm, which calls `createBooking`
with the record built by `handleConfirmBooking`. -/
inductive StandardPath : List Booking → Prop
  | empty : StandardPath []
  | confirm {store : List Booking} (p : RouteParams) (uid notes : String)
      (presses : List Int) (createdAt now : Nat) (draft : BookingData) :
      StandardPath store →
      handleConfirmBooking p uid (screenAfter presses notes) createdAt = some draft →
      StandardPath (createBooking store now draft).1

/-- The standard path with a sequential availability check: a booking is only
confirmed when `checkDateAvailability` for its car and range has just reported
`available = true` on the current store. -/
inductive CheckedPath : List Booking → Prop
  | empty : CheckedPath []
  | confirm {store : List Booking} (p : RouteParams) (uid notes : String)
      (presses : List Int) (createdAt now : Nat) (draft : BookingData) :
      CheckedPath store →
      handleConfirmBooking p uid (screenAfter presses notes) createdAt = some draft →
      (checkDateAvailability store draft.carId draft.startDate draft.endDate).available = true →
      CheckedPath (createBooking store now draft).1

/-- The five statuses of the booking lifecycle. -/
def statuses : List String := ["confirmed", "ready", "ongoing", "completed", "cancelled"]

/-- The status reached by one status transition of the booking `bookingId`: the status
that `getBookingById` shows after a successful `updateBookingStatus`, and `none` when
the update does not succeed. -/
def statusAfter (store : List Booking) (now : Nat) (bookingId target : String) :
    Option String :=
  let r := updateBookingStatus store now bookingId target
  if r.2.success then
    match getBookingById r.1 bookingId with
    | .ok b => some b.status
    | .error _ => none
  else none

/-- A call of one of the mutating operations of the store. -/
inductive StoreOp where
  | create (now : Nat) (bookingData : BookingData)
  | updateStatus (now : Nat) (bookingId status : String)
  | update (now : Nat) (bookingId : String) (updates : BookingUpdates)
  | cancel (now : Nat) (bookingId : String)
  | delete (bookingId : String)
  deriving DecidableEq, Repr

/-- The store after one call. -/
def applyOp (store : List Booking) : StoreOp → List Booking
  | .create now d => (createBooking store now d).1
  | .updateStatus now bookingId status => (updateBookingStatus store now bookingId status).1
  | .update now bookingId updates => (updateBooking store now bookingId updates).1
  | .cancel now bookingId => (cancelBooking store now bookingId).1
  | .delete bookingId => (deleteBooking store bookingId).1

/-- The store after a sequence of calls, starting from the empty store. -/
def runOps (ops : List StoreOp) : List Booking := ops.foldl applyOp []

/-- Every created draft has status `confirmed`; the status arguments of the other calls
are not restricted. -/
def StoreOp.createsConfirmed : StoreOp → Prop
  | .create _ d => d.status = "confirmed"
  | _ => True

/-- Every created draft has status `confirmed`, and every status handed to
`updateBookingStatus` or named in the `updates` of `updateBooking` is one of the five
lifecycle statuses. -/
def StoreOp.statusArgsValid : StoreOp → Prop
  | .create _ d => d.status = "confirmed"
  | .updateStatus _ _ status => status ∈ statuses
  | .update _ _ updates => ∀ s, updates.status = some s → s ∈ statuses
  | .cancel _ _ => True
  | .delete _ => True

/-- The store after a sequence of `createBooking` calls, given as pairs of the clock
reading `Date.now()` and the draft, starting from the empty store. -/
def createAll (calls : List (Nat × BookingData)) : List Booking :=
  calls.foldl (fun store c => (createBooking store c.1 c.2).1) []

/-- The fields of a booking that the data model calls immutable. -/
def coreFields (b : Booking) : String × String × String × Nat :=
  (b.id, b.userId, b.carId, b.createdAt)

/-- An `updates` argument that names no property. -/
def noUpdates : BookingUpdates :=
  { id := none
    userId := none
    carId := none
    carDetails := none
    tripDetails := none
    startDate := none
    endDate := none
    days := none
    totalPrice := none
    notes := none
    status := none
    createdAt := none
    updatedAt := none }

/-- How one property of the merged record arises: from `updates` when `updates` names
it (`u = some v`), from the old record otherwise. -/
def Merged {α : Type} (u : Option α) (old new : α) : Prop :=
  (∀ v, u = some v → new = v) ∧ (u = none → new = old)

/-- A call of one of the read operations of the store. -/
inductive ReadCall where
  | getBookingById (bookingId : String)
  | getUserBookings (userId : String)
  | getCarBookings (carId : String)
  | checkDateAvailability (carId : String) (startDate endDate : Int)
  deriving DecidableEq, Repr

/-- The store after one read call. -/
def applyRead (store : List Booking) : ReadCall → List Booking
  | .getBookingById bookingId => (Threaded.getBookingById store bookingId).1
  | .getUserBookings userId => (Threaded.getUserBookings store userId).1
  | .getCarBookings carId => (Threaded.getCarBookings store carId).1
  | .checkDateAvailability carId startDate endDate =>
      (Threaded.checkDateAvailability store carId startDate endDate).1

/-- The store after a sequence of read calls. -/
def runReads (store : List Booking) (calls : List ReadCall) : List Booking :=
  calls.foldl applyRead store

/-! ## Decimal strings -/

/-- The value of a decimal digit character. -/
def digitValue (c : Char) : Nat := c.toNat - 48

/-- The number written by a list of decimal digit characters, most significant first. -/
def decodeDigits (cs : List Char) : Nat := cs.foldl (fun acc c => 10 * acc + digitValue c) 0

/-! ## Example data -/

/-- A booking of car `carId` over `[startDate, endDate]` with the given id and status;
the remaining fields are fixed sample values. -/
def sampleBooking (id carId : String) (startDate endDate : Int) (status : String) : Booking :=
  { id := id
    userId := "u1"
    carId := carId
    carDetails := { brand := "Toyota", model := "Camry", type := "Sedan" }
    tripDetails :=
      { source := "A", destination := "B", passengers := 2, days := 2, estimatedDistance := 120,
        estimatedDuration := "2h" }
    startDate := startDate
    endDate := endDate
    days := 5
    totalPrice := 225
    notes := ""
    status := status
    createdAt := 1717000000000
    updatedAt := none }

/-- The confirmed booking of car `C1` over 2024-06-10 .. 2024-06-15. -/
def juneBooking : Booking := sampleBooking "booking-1717000000000" "C1" 19884 19889 "confirmed"

/-- Route parameters for car `C2` at 50 per day. -/
def sampleParams : RouteParams :=
  { car := { id := "C2", brand := "Honda", model := "CR-V", type := "SUV", pricePerDay := 50 }
    tripDetails := { source := "A", destination := "B", passengers := 2, days := 2 }
    estimatedDistance := 120
    estimatedDuration := "2h"
    totalPrice := 50 }

/-- The record submitted for car `C2` after pressing 2024-07-01 and then 2024-07-03. -/
def julyDraft : BookingData :=
  { id := none
    userId := "u1"
    carId := "C2"
    carDetails := { brand := "Honda", model := "CR-V", type := "SUV" }
    tripDetails :=
      { source := "A", destination := "B", passengers := 2, days := 2, estimatedDistance := 120,
        estimatedDuration := "2h" }
    startDate := 19905
    endDate := 19907
    days := 2
    totalPrice := 100
    notes := ""
    status := "confirmed"
    createdAt := 1719000000000
    updatedAt := none }

/-- The store after confirming the same July range for car `C2` twice. -/
def doubleBookedStore : List Booking :=
  (createBooking (createBooking [] 1719000000001 julyDraft).1 1719000060001 julyDraft).1

/-- The record submitted for car `C2` after pressing 2024-07-04 and then 2024-07-06. -/
def laterDraft : BookingData := { julyDraft with startDate := 19908, endDate := 19910 }

/-- The store after confirming two disjoint July ranges for car `C2`, each after a
successful availability check. -/
def checkedStore : List Booking :=
  (createBooking (createBooking [] 1719000000001 julyDraft).1 1719000060001 laterDraft).1

/-- A cancelled booking of car `C1`. -/
def cancelledBooking : Booking := sampleBooking "booking-1717000000001" "C1" 19884 19889 "cancelled"

/-- A completed booking of car `C1`. -/
def completedBooking : Booking := sampleBooking "booking-1717000000002" "C1" 19884 19889 "completed"

/-- One confirmed booking is created, then its status is set to a value outside the
lifecycle. -/
def archiveOps : List StoreOp :=
  [.create 1719000000001 julyDraft,
    .updateStatus 1719000005000 "booking-1719000000001" "archived"]

/-- One confirmed booking is created, moved to `ready` and then cancelled. -/
def lifecycleOps : List StoreOp :=
  [.create 1719000000001 julyDraft,
    .updateStatus 1719000005000 "booking-1719000000001" "ready",
    .cancel 1719000006000 "booking-1719000000001"]

/-- The store after two `createBooking` calls that read the same clock value. -/
def collidingStore : List Booking :=
  (createBooking (createBooking [] 1719000000001 julyDraft).1 1719000000001 laterDraft).1

/-- Two `createBooking` calls at different clock readings. -/
def sampleCalls : List (Nat × BookingData) :=
  [(1719000000001, julyDraft), (1719000060001, laterDraft)]

/-- A draft that carries an `id` property of its own. -/
def draftWithId : BookingData := { julyDraft with id := some "custom-7" }

/-- An `updates` argument that names the four core properties. -/
def coreUpdates : BookingUpdates :=
  { noUpdates with
    id := some "booking-2"
    userId := some "u2"
    carId := some "C9"
    createdAt := some 0 }

/-- An `updates` argument that names the notes, the end date and its own `updatedAt`. -/
def notesUpdates : BookingUpdates :=
  { noUpdates with
    endDate := some 19890
    notes := some "child seat"
    updatedAt := some 5 }

/-- The store that holds the first July booking of car `C2`. -/
def julyStore : List Booking := (createBooking [] 1719000000001 julyDraft).1

/-! ## Auxiliary lemmas -/

theorem msPerDay_pos : (0 : Int) < (msPerDay : Int) := by decide

theorem newDate_le_iff (a b : Int) : newDate a ≤ newDate b ↔ a ≤ b := by
  unfold newDate
  exact mul_le_mul_right msPerDay_pos

theorem mem_getCarBookings (store : List Booking) (carId : String) (b : Booking) :
    b ∈ (getCarBookings store carId).bookings ↔ b ∈ store ∧ b.carId = carId := by
  unfold getCarBookings
  simp only
  rw [(List.perm_insertionSort startDateLE _).mem_iff]
  simp

/-- The availability flag is the negation of a conflict search over the store. -/
theorem available_iff_aux (store : List Booking) (carId : String) (s e : Int) :
    (checkDateAvailability store carId s e).available = true ↔
      ∀ b ∈ store, b.carId = carId → b.status ≠ "cancelled" →
        ¬ (s ≤ b.endDate ∧ e ≥ b.startDate) := by
  unfold checkDateAvailability
  have hs : (getCarBookings store carId).success = true := rfl
  simp only [hs, Bool.not_true, Bool.false_eq_true, if_false]
  simp only [Bool.not_eq_true', List.any_eq_false]
  constructor
  · intro h b hb hc hst
    have := h b ((mem_getCarBookings store carId b).2 ⟨hb, hc⟩)
    simp [hst, newDate_le_iff] at this
    intro hcon
    exact absurd hcon.2 (not_le.2 (this hcon.1))
  · intro h b hb
    obtain ⟨hb1, hb2⟩ := (mem_getCarBookings store carId b).1 hb
    by_cases hst : b.status = "cancelled"
    · simp [hst]
    · have := h b hb1 hb2 hst
      simp [hst, newDate_le_iff]
      intro h1
      by_contra h2
      exact this ⟨h1, le_of_not_lt h2⟩

theorem updateBookingStatus_nil (now : Nat) (bookingId status : String) :
    (updateBookingStatus [] now bookingId status).1 = [] := rfl

theorem updateBookingStatus_cons (a : Booking) (l : List Booking) (now : Nat)
    (bookingId status : String) :
    (updateBookingStatus (a :: l) now bookingId status).1 =
      if a.id = bookingId then setStatus a status now :: l
      else a :: (updateBookingStatus l now bookingId status).1 := by
  unfold updateBookingStatus
  by_cases h : a.id = bookingId
  · simp [h]
  · simp only [List.findIdx?_cons, beq_iff_eq, h, if_false]
    rw [show (0 : Nat) + 1 = 0 + 1 from rfl, List.findIdx?_succ]
    cases List.findIdx? (fun b => b.id == bookingId) l 0 <;> simp

/-- With unique ids, every record of the store after a status update is either an
untouched record with another id or a record carrying the new status. -/
theorem mem_updateBookingStatus (store : List Booking) (now : Nat) (bookingId status : String)
    (hnodup : (store.map (fun b => b.id)).Nodup) (b : Booking)
    (hb : b ∈ (updateBookingStatus store now bookingId status).1) :
    (b ∈ store ∧ b.id ≠ bookingId) ∨ b.status = status := by
  induction store with
  | nil => simp [updateBookingStatus_nil] at hb
  | cons a l ih =>
    rw [updateBookingStatus_cons] at hb
    simp only [List.map_cons, List.nodup_cons, List.mem_map, not_exists, not_and] at hnodup
    by_cases h : a.id = bookingId
    · simp only [h, if_true, List.mem_cons] at hb
      rcases hb with hb | hb
      · right
        rw [hb]
        rfl
      · left
        refine ⟨List.mem_cons_of_mem _ hb, ?_⟩
        intro hid
        exact hnodup.1 b hb (by rw [hid, h])
    · simp only [h, if_false, List.mem_cons] at hb
      rcases hb with hb | hb
      · left
        exact ⟨by simp [hb], by rw [hb]; exact h⟩
      · rcases ih hnodup.2 hb with ⟨h1, h2⟩ | h1
        · left
          exact ⟨List.mem_cons_of_mem _ h1, h2⟩
        · right
          exact h1

theorem createBooking_store (store : List Booking) (now : Nat) (d : BookingData) :
    (createBooking store now d).1 = store ++ [newBooking (mkBookingId now) d] := rfl

/-- In a list whose elements are pairwise related by `R`, a filter that keeps only
mutually unrelated elements keeps at most one. -/
theorem length_filter_le_one {α : Type} (R : α → α → Prop) (P : α → Bool) (l : List α)
    (hp : l.Pairwise R) (hR : ∀ a b, P a = true → P b = true → ¬ R a b) :
    (l.filter P).length ≤ 1 := by
  induction l with
  | nil => simp
  | cons a t ih =>
    rw [List.pairwise_cons] at hp
    by_cases ha : P a = true
    · have hnil : t.filter P = [] := by
        rw [List.filter_eq_nil_iff]
        intro b hb hPb
        exact hR a b ha hPb (hp.1 b hb)
      simp [List.filter_cons, ha, hnil]
    · simp only [List.filter_cons, ha, if_false]
      exact ih hp.2

theorem holders_length_le_one (store : List Booking) (h : NoDoubleBooking store)
    (carId : String) (d : Int) : (holders store carId d).length ≤ 1 := by
  unfold holders
  refine length_filter_le_one Compatible _ store h ?_
  intro a b ha hb hab
  simp only [Bool.and_eq_true, beq_iff_eq, bne_iff_ne, ne_eq, decide_eq_true_eq] at ha hb
  obtain ⟨⟨⟨ha1, ha2⟩, ha3⟩, ha4⟩ := ha
  obtain ⟨⟨⟨hb1, hb2⟩, hb3⟩, hb4⟩ := hb
  exact hab (by rw [ha1, hb1]) ha2 hb2 ⟨le_trans ha3 hb4, le_trans hb3 ha4⟩

theorem noDoubleBooking_createBooking (store : List Booking) (now : Nat) (d : BookingData)
    (h : NoDoubleBooking store)
    (hav : (checkDateAvailability store d.carId d.startDate d.endDate).available = true) :
    NoDoubleBooking (createBooking store now d).1 := by
  rw [createBooking_store]
  unfold NoDoubleBooking at h ⊢
  rw [List.pairwise_append]
  refine ⟨h, List.pairwise_singleton _ _, ?_⟩
  intro a ha b hb
  rw [List.mem_singleton] at hb
  subst hb
  rw [available_iff_aux] at hav
  intro hcar hsa _ hov
  exact hav a ha hcar hsa ⟨hov.2, hov.1⟩

theorem ceilDiv_mul_msPerDay (n : Nat) : ceilDiv (n * msPerDay) msPerDay = n := by
  unfold ceilDiv msPerDay
  omega

theorem natAbs_newDate_sub (s e : Int) :
    (newDate e - newDate s).natAbs = (e - s).natAbs * msPerDay := by
  unfold newDate
  rw [← sub_mul, Int.natAbs_mul, Int.natAbs_ofNat]

/-- With both dates selected, `calculateDays` is the distance in days, or 1 when that
distance is 0. -/
theorem calculateDays_some (s e : Int) (notes : String) :
    calculateDays { startDate := some s, endDate := some e, notes := notes } =
      max 1 (e - s).natAbs := by
  unfold calculateDays
  simp only [natAbs_newDate_sub, ceilDiv_mul_msPerDay]
  split <;> omega

/-- On every state with both dates set, reachable through the calendar or not,
`calculateDays` is the absolute difference in whole days with a minimum of 1. -/
theorem calculateDays_eq_max_abs (startDate endDate : Int) (notes : String) :
    (calculateDays { startDate := some startDate, endDate := some endDate, notes := notes } : Int)
      = max 1 |endDate - startDate| := by
  rw [calculateDays_some, Int.abs_eq_natAbs]
  push_cast
  rfl

theorem calculateDays_of_some (st : ScreenState) (s e : Int) (hs : st.startDate = some s)
    (he : st.endDate = some e) : calculateDays st = max 1 (e - s).natAbs := by
  obtain ⟨s0, e0, n⟩ := st
  simp only at hs he
  subst hs he
  exact calculateDays_some s e n

theorem handleConfirmBooking_eq_some (p : RouteParams) (uid : String) (st : ScreenState)
    (createdAt : Nat) (draft : BookingData)
    (h : handleConfirmBooking p uid st createdAt = some draft) :
    st.startDate = some draft.startDate ∧ st.endDate = some draft.endDate ∧
      draft.days = calculateDays st ∧ draft.totalPrice = p.car.pricePerDay * calculateDays st ∧
      draft.carId = p.car.id ∧ draft.status = "confirmed" ∧ draft.id = none := by
  unfold handleConfirmBooking at h
  split at h
  · rename_i s e hs he
    simp only [Option.some.injEq] at h
    subst h
    exact ⟨hs, he, rfl, rfl, rfl, rfl, rfl⟩
  · exact absurd h (by simp)

/-- The invariant of the date selection: a selected end date is not before the
selected start date. -/
theorem onDayPress_ordered (st : ScreenState) (day : Int)
    (h : ∀ s e, st.startDate = some s → st.endDate = some e → s ≤ e) :
    ∀ s e, (onDayPress st day).startDate = some s → (onDayPress st day).endDate = some e →
      s ≤ e := by
  obtain ⟨s0, e0, n⟩ := st
  intro s e hs he
  cases s0 with
  | none => simp [onDayPress] at he
  | some s0 =>
    cases e0 with
    | some e0 => simp [onDayPress] at he
    | none =>
      by_cases hd : day < s0
      · simp [onDayPress, hd] at he
      · simp only [onDayPress, hd, if_false, Option.some.injEq] at hs he
        omega

theorem foldl_onDayPress_ordered (presses : List Int) (st : ScreenState)
    (h : ∀ s e, st.startDate = some s → st.endDate = some e → s ≤ e) :
    ∀ s e, (presses.foldl onDayPress st).startDate = some s →
      (presses.foldl onDayPress st).endDate = some e → s ≤ e := by
  induction presses generalizing st with
  | nil => exact h
  | cons d t ih => exact ih (onDayPress st d) (onDayPress_ordered st d h)

/-! ### Lists: first match and in-place replacement -/

/-- A list with a match of `p` splits at its first match, `findIdx?` returns that
position and `modify` replaces exactly that element. -/
theorem findIdx_modify_split {α : Type} (p : α → Bool) (f : α → α) (l : List α)
    (h : ∃ x ∈ l, p x = true) :
    ∃ l1 b l2 i, l = l1 ++ b :: l2 ∧ (∀ x ∈ l1, p x = false) ∧ p b = true ∧
      l.findIdx? p = some i ∧ l.modify f i = l1 ++ f b :: l2 := by
  induction l with
  | nil =>
    obtain ⟨x, hx, -⟩ := h
    simp at hx
  | cons a t ih =>
    by_cases ha : p a = true
    · exact ⟨[], a, t, 0, rfl, by simp, ha, by simp [List.findIdx?_cons, ha], by simp⟩
    · have ht : ∃ x ∈ t, p x = true := by
        obtain ⟨x, hx, hpx⟩ := h
        rcases List.mem_cons.1 hx with rfl | hx
        · exact absurd hpx ha
        · exact ⟨x, hx, hpx⟩
      obtain ⟨l1, b, l2, i, hsplit, hl1, hb, hidx, hmod⟩ := ih ht
      refine ⟨a :: l1, b, l2, i + 1, by rw [hsplit]; rfl, ?_, hb, ?_, ?_⟩
      · intro x hx
        rcases List.mem_cons.1 hx with rfl | hx
        · simpa using ha
        · exact hl1 x hx
      · rw [List.findIdx?_cons, if_neg ha, show (0 : Nat) + 1 = 0 + 1 from rfl,
          List.findIdx?_succ, hidx]
        rfl
      · rw [List.modify_succ_cons, hmod]
        rfl

theorem find?_append_first {α : Type} (p : α → Bool) (l1 l2 : List α) (b : α)
    (hl1 : ∀ x ∈ l1, p x = false) (hb : p b = true) :
    (l1 ++ b :: l2).find? p = some b := by
  induction l1 with
  | nil => simp [List.find?_cons, hb]
  | cons a t ih =>
    have ha : p a = false := hl1 a (List.mem_cons_self _ _)
    simp only [List.cons_append, List.find?_cons, ha]
    exact ih (fun x hx => hl1 x (List.mem_cons_of_mem _ hx))

theorem mem_modify {α : Type} (f : α → α) (l : List α) (n : Nat) (x : α)
    (hx : x ∈ l.modify f n) : x ∈ l ∨ ∃ y ∈ l, x = f y := by
  induction l generalizing n with
  | nil => simp at hx
  | cons a t ih =>
    cases n with
    | zero =>
      simp only [List.modify_zero_cons, List.mem_cons] at hx
      rcases hx with rfl | hx
      · exact Or.inr ⟨a, List.mem_cons_self _ _, rfl⟩
      · exact Or.inl (List.mem_cons_of_mem _ hx)
    | succ n =>
      simp only [List.modify_succ_cons, List.mem_cons] at hx
      rcases hx with rfl | hx
      · exact Or.inl (List.mem_cons_self _ _)
      · rcases ih n hx with h | ⟨y, hy, rfl⟩
        · exact Or.inl (List.mem_cons_of_mem _ h)
        · exact Or.inr ⟨y, List.mem_cons_of_mem _ hy, rfl⟩

/-! ### Status and field updates -/

theorem updateBookingStatus_found (store : List Booking) (now : Nat) (bookingId status : String)
    (h : ∃ b ∈ store, b.id = bookingId) :
    ∃ l1 b l2, store = l1 ++ b :: l2 ∧ (∀ x ∈ l1, x.id ≠ bookingId) ∧ b.id = bookingId ∧
      updateBookingStatus store now bookingId status =
        (l1 ++ setStatus b status now :: l2, { success := true, error := none }) := by
  obtain ⟨l1, b, l2, i, hsplit, hl1, hb, hidx, hmod⟩ :=
    findIdx_modify_split (fun b => b.id == bookingId) (fun b => setStatus b status now) store
      (by obtain ⟨b, hb, hid⟩ := h; exact ⟨b, hb, by simpa using hid⟩)
  refine ⟨l1, b, l2, hsplit, ?_, by simpa using hb, ?_⟩
  · intro x hx
    simpa using hl1 x hx
  · unfold updateBookingStatus
    rw [hidx]
    simp only [hmod]

theorem updateBookingStatus_absent (store : List Booking) (now : Nat) (bookingId status : String)
    (h : ∀ b ∈ store, b.id ≠ bookingId) :
    updateBookingStatus store now bookingId status =
      (store, { success := false, error := some "Booking not found" }) := by
  have hidx : store.findIdx? (fun b => b.id == bookingId) = none := by
    rw [List.findIdx?_eq_none_iff]
    intro x hx
    simpa using h x hx
  unfold updateBookingStatus
  rw [hidx]

theorem updateBooking_found (store : List Booking) (now : Nat) (bookingId : String)
    (updates : BookingUpdates) (h : ∃ b ∈ store, b.id = bookingId) :
    ∃ l1 b l2, store = l1 ++ b :: l2 ∧ (∀ x ∈ l1, x.id ≠ bookingId) ∧ b.id = bookingId ∧
      updateBooking store now bookingId updates =
        (l1 ++ mergeUpdates b updates now :: l2, { success := true, error := none }) := by
  obtain ⟨l1, b, l2, i, hsplit, hl1, hb, hidx, hmod⟩ :=
    findIdx_modify_split (fun b => b.id == bookingId) (fun b => mergeUpdates b updates now)
      store (by obtain ⟨b, hb, hid⟩ := h; exact ⟨b, hb, by simpa using hid⟩)
  refine ⟨l1, b, l2, hsplit, ?_, by simpa using hb, ?_⟩
  · intro x hx
    simpa using hl1 x hx
  · unfold updateBooking
    rw [hidx]
    simp only [hmod]

theorem updateBooking_absent (store : List Booking) (now : Nat) (bookingId : String)
    (updates : BookingUpdates) (h : ∀ b ∈ store, b.id ≠ bookingId) :
    updateBooking store now bookingId updates =
      (store, { success := false, error := some "Booking not found" }) := by
  have hidx : store.findIdx? (fun b => b.id == bookingId) = none := by
    rw [List.findIdx?_eq_none_iff]
    intro x hx
    simpa using h x hx
  unfold updateBooking
  rw [hidx]

/-- The lookup of `bookingId` in a store split at the first record with that id. -/
theorem getBookingById_split (l1 l2 : List Booking) (b : Booking) (bookingId : String)
    (hl1 : ∀ x ∈ l1, x.id ≠ bookingId) (hb : b.id = bookingId) :
    getBookingById (l1 ++ b :: l2) bookingId = .ok b := by
  unfold getBookingById
  rw [find?_append_first (fun b => b.id == bookingId) l1 l2 b
    (fun x hx => by simpa using hl1 x hx) (by simpa using hb)]

theorem getBookingById_absent (store : List Booking) (bookingId : String)
    (h : ∀ b ∈ store, b.id ≠ bookingId) :
    getBookingById store bookingId = .error "Booking not found" := by
  unfold getBookingById
  have : store.find? (fun b => b.id == bookingId) = none := by
    rw [List.find?_eq_none]
    intro x hx
    simpa using h x hx
  rw [this]

/-- A successful lookup splits the store at the first record with that id. -/
theorem getBookingById_ok_split (store : List Booking) (bookingId : String) (b : Booking)
    (h : getBookingById store bookingId = .ok b) :
    ∃ l1 l2, store = l1 ++ b :: l2 ∧ (∀ x ∈ l1, x.id ≠ bookingId) ∧ b.id = bookingId := by
  by_cases hex : ∃ x ∈ store, x.id = bookingId
  · obtain ⟨l1, b0, l2, -, hsplit, hl1, hb0, -, -⟩ :=
      findIdx_modify_split (fun b => b.id == bookingId) id store
        (by obtain ⟨x, hx, hid⟩ := hex; exact ⟨x, hx, by simpa using hid⟩)
    have hl1' : ∀ x ∈ l1, x.id ≠ bookingId := fun x hx => by simpa using hl1 x hx
    have hb0' : b0.id = bookingId := by simpa using hb0
    have := getBookingById_split l1 l2 b0 bookingId hl1' hb0'
    rw [← hsplit, h] at this
    injection this with hbb
    subst hbb
    exact ⟨l1, l2, hsplit, hl1', hb0'⟩
  · rw [getBookingById_absent store bookingId (fun x hx hid => hex ⟨x, hx, hid⟩)] at h
    exact absurd h (by simp)

/-! ### Sorted queries -/

theorem createdAtGE_iff (a b : Booking) : createdAtGE a b ↔ b.createdAt ≤ a.createdAt := by
  unfold createdAtGE
  omega

theorem startDateLE_iff (a b : Booking) : startDateLE a b ↔ a.startDate ≤ b.startDate := by
  unfold startDateLE
  rw [sub_nonpos, newDate_le_iff]

theorem sorted_insertionSort_createdAtGE (l : List Booking) :
    (l.insertionSort createdAtGE).Pairwise (fun a b => a.createdAt ≥ b.createdAt) := by
  haveI : IsTotal Booking createdAtGE :=
    ⟨fun a b => by simp only [createdAtGE_iff]; exact le_total _ _⟩
  haveI : IsTrans Booking createdAtGE :=
    ⟨fun a b c hab hbc => by
      simp only [createdAtGE_iff] at hab hbc ⊢
      exact le_trans hbc hab⟩
  exact (List.sorted_insertionSort createdAtGE l).imp (fun h => (createdAtGE_iff _ _).1 h)

theorem sorted_insertionSort_startDateLE (l : List Booking) :
    (l.insertionSort startDateLE).Pairwise (fun a b => a.startDate ≤ b.startDate) := by
  haveI : IsTotal Booking startDateLE :=
    ⟨fun a b => by simp only [startDateLE_iff]; exact le_total _ _⟩
  haveI : IsTrans Booking startDateLE :=
    ⟨fun a b c hab hbc => by
      simp only [startDateLE_iff] at hab hbc ⊢
      exact le_trans hab hbc⟩
  exact (List.sorted_insertionSort startDateLE l).imp (fun h => (startDateLE_iff _ _).1 h)

/-! ### Statuses along sequences of calls -/

theorem applyOp_status (store : List Booking) (op : StoreOp)
    (hstore : ∀ b ∈ store, b.status ∈ statuses) (hop : op.statusArgsValid) :
    ∀ b ∈ applyOp store op, b.status ∈ statuses := by
  have hupd : ∀ (now : Nat) (bookingId status : String), status ∈ statuses →
      ∀ b ∈ (updateBookingStatus store now bookingId status).1, b.status ∈ statuses := by
    intro now bookingId status hst b hb
    unfold updateBookingStatus at hb
    split at hb
    · rcases mem_modify _ _ _ _ hb with h | ⟨y, -, rfl⟩
      · exact hstore b h
      · exact hst
    · exact hstore b hb
  intro b hb
  cases op with
  | create now d =>
    simp only [applyOp, createBooking_store, List.mem_append, List.mem_singleton] at hb
    rcases hb with hb | rfl
    · exact hstore b hb
    · have hd : d.status = "confirmed" := hop
      show d.status ∈ statuses
      rw [hd]
      decide
  | updateStatus now bookingId status => exact hupd now bookingId status hop b hb
  | update now bookingId updates =>
    simp only [applyOp] at hb
    unfold updateBooking at hb
    split at hb
    · rcases mem_modify _ _ _ _ hb with h | ⟨y, hy, rfl⟩
      · exact hstore b h
      · show updates.status.getD y.status ∈ statuses
        cases hu : updates.status with
        | none => exact hstore y hy
        | some v => exact hop v hu
    · exact hstore b hb
  | cancel now bookingId => exact hupd now bookingId "cancelled" (by decide) b hb
  | delete bookingId =>
    simp only [applyOp, deleteBooking] at hb
    exact hstore b (List.mem_of_mem_filter hb)

theorem foldl_applyOp_status (ops : List StoreOp) (store : List Booking)
    (hstore : ∀ b ∈ store, b.status ∈ statuses) (hops : ∀ op ∈ ops, op.statusArgsValid) :
    ∀ b ∈ ops.foldl applyOp store, b.status ∈ statuses := by
  induction ops generalizing store with
  | nil => exact hstore
  | cons op t ih =>
    exact ih (applyOp store op)
      (applyOp_status store op hstore (hops op (List.mem_cons_self _ _)))
      (fun o ho => hops o (List.mem_cons_of_mem _ ho))

/-! ### Generated ids -/

theorem digitValue_digitChar (k : Nat) (h : k < 10) : digitValue (Nat.digitChar k) = k := by
  interval_cases k <;> rfl

theorem decodeDigits_append_singleton (pre : List Char) (c : Char) :
    decodeDigits (pre ++ [c]) = 10 * decodeDigits pre + digitValue c := by
  unfold decodeDigits
  rw [List.foldl_append]
  rfl

/-- The digits that `Nat.toDigitsCore` puts in front of its accumulator spell `n`. -/
theorem toDigitsCore_decode (fuel : Nat) : ∀ n, n < fuel →
    ∃ pre, (∀ ds, Nat.toDigitsCore 10 fuel n ds = pre ++ ds) ∧ decodeDigits pre = n := by
  induction fuel with
  | zero =>
    intro n hn
    exact absurd hn (Nat.not_lt_zero n)
  | succ fuel ih =>
    intro n hn
    by_cases h0 : n / 10 = 0
    · refine ⟨[Nat.digitChar (n % 10)], ?_, ?_⟩
      · intro ds
        simp [Nat.toDigitsCore, h0]
      · have hlt : n % 10 < 10 := Nat.mod_lt _ (by decide)
        have : decodeDigits [Nat.digitChar (n % 10)] = digitValue (Nat.digitChar (n % 10)) := by
          simp [decodeDigits]
        rw [this, digitValue_digitChar _ hlt]
        omega
    · obtain ⟨pre, hpre, hval⟩ := ih (n / 10) (by omega)
      refine ⟨pre ++ [Nat.digitChar (n % 10)], ?_, ?_⟩
      · intro ds
        simp [Nat.toDigitsCore, h0, hpre]
      · rw [decodeDigits_append_singleton, hval,
          digitValue_digitChar _ (Nat.mod_lt _ (by decide))]
        omega

theorem decodeDigits_toDigits (n : Nat) : decodeDigits (Nat.toDigits 10 n) = n := by
  obtain ⟨pre, hpre, hval⟩ := toDigitsCore_decode (n + 1) n (Nat.lt_succ_self n)
  unfold Nat.toDigits
  rw [hpre [], List.append_nil, hval]

theorem toString_nat_injective (a b : Nat) (h : toString a = toString b) : a = b := by
  have h1 : Nat.repr a = Nat.repr b := h
  unfold Nat.repr List.asString at h1
  have h2 : Nat.toDigits 10 a = Nat.toDigits 10 b := congrArg String.data h1
  rw [← decodeDigits_toDigits a, ← decodeDigits_toDigits b, h2]

/-- Different clock readings give different generated ids. -/
theorem mkBookingId_injective : Function.Injective mkBookingId := by
  intro a b h
  unfold mkBookingId at h
  have h1 := congrArg String.data h
  rw [String.data_append, String.data_append] at h1
  exact toString_nat_injective a b (String.ext (List.append_cancel_left h1))

theorem foldl_createBooking (calls : List (Nat × BookingData)) (store : List Booking) :
    calls.foldl (fun store c => (createBooking store c.1 c.2).1) store =
      store ++ calls.map (fun c => newBooking (mkBookingId c.1) c.2) := by
  induction calls generalizing store with
  | nil => simp
  | cons c t ih =>
    rw [List.foldl_cons, ih, createBooking_store]
    simp

theorem createAll_eq_map (calls : List (Nat × BookingData)) :
    createAll calls = calls.map (fun c => newBooking (mkBookingId c.1) c.2) := by
  unfold createAll
  rw [foldl_createBooking]
  rfl

theorem createAll_ids (calls : List (Nat × BookingData)) (hid : ∀ c ∈ calls, c.2.id = none) :
    (createAll calls).map (fun b => b.id) = (calls.map Prod.fst).map mkBookingId := by
  rw [createAll_eq_map, List.map_map, List.map_map]
  apply List.map_congr_left
  intro c hc
  simp [newBooking, hid c hc]

theorem merged_getD {α : Type} (u : Option α) (old : α) : Merged u old (u.getD old) := by
  cases u with
  | none => exact ⟨fun v h => absurd h (by simp), fun _ => rfl⟩
  | some w => exact ⟨fun v h => by simpa using h, fun h => absurd h (by simp)⟩

theorem coreFields_mergeUpdates (b : Booking) (u : BookingUpdates) (now : Nat)
    (h1 : u.id = none) (h2 : u.userId = none) (h3 : u.carId = none)
    (h4 : u.createdAt = none) : coreFields (mergeUpdates b u now) = coreFields b := by
  simp [coreFields, mergeUpdates, h1, h2, h3, h4]

/-! ### Read operations -/

theorem threaded_getBookingById (store : List Booking) (bookingId : String) :
    Threaded.getBookingById store bookingId = (store, getBookingById store bookingId) := by
  unfold Threaded.getBookingById getBookingById arrayFind
  cases store.find? (fun b => b.id == bookingId) <;> rfl

theorem threaded_checkDateAvailability (store : List Booking) (carId : String)
    (startDate endDate : Int) :
    Threaded.checkDateAvailability store carId startDate endDate =
      (store, checkDateAvailability store carId startDate endDate) := rfl

theorem applyRead_store (store : List Booking) (call : ReadCall) :
    applyRead store call = store := by
  cases call with
  | getBookingById bookingId =>
    show (Threaded.getBookingById store bookingId).1 = store
    rw [threaded_getBookingById]
  | getUserBookings userId => rfl
  | getCarBookings carId => rfl
  | checkDateAvailability carId startDate endDate => rfl

theorem runReads_store (store : List Booking) (calls : List ReadCall) :
    runReads store calls = store := by
  unfold runReads
  induction calls with
  | nil => rfl
  | cons c t ih => rw [List.foldl_cons, applyRead_store, ih]

/-! ### Overlap and availability -/

/-- Two non-empty closed ranges pass the conflict test exactly when they share a day. -/
theorem overlap_iff_common_day (s e bs be : Int) (hse : s ≤ e) (hb : bs ≤ be) :
    (s ≤ be ∧ e ≥ bs) ↔ ∃ d, s ≤ d ∧ d ≤ e ∧ bs ≤ d ∧ d ≤ be := by
  constructor
  · rintro ⟨h1, h2⟩
    exact ⟨max s bs, le_max_left _ _, max_le hse h2, le_max_right _ _, max_le h1 hb⟩
  · rintro ⟨d, h1, h2, h3, h4⟩
    exact ⟨le_trans h1 h4, le_trans h3 h2⟩

theorem unavailable_iff_aux (store : List Booking) (carId : String) (s e : Int) :
    (checkDateAvailability store carId s e).available = false ↔
      ∃ b ∈ store, b.carId = carId ∧ b.status ≠ "cancelled" ∧
        s ≤ b.endDate ∧ e ≥ b.startDate := by
  rw [← Bool.not_eq_true, available_iff_aux]
  constructor
  · intro h
    by_contra hne
    exact h (fun b hb hc hst hov => hne ⟨b, hb, hc, hst, hov⟩)
  · rintro ⟨b, hb, hc, hst, hov⟩ h
    exact h b hb hc hst hov

/-! ## Theorems -/

/-- C1: `checkDateAvailability` reports `available = true` exactly when the store holds
no booking of that car, with a status other than `cancelled`, whose range satisfies
`startDate ≤ bookingEnd` and `endDate ≥ bookingStart`. -/
theorem checkDateAvailability_available_iff (store : List Booking) (carId : String)
    (startDate endDate : Int) :
    (checkDateAvailability store carId startDate endDate).available = true ↔
      ¬ ∃ b ∈ store, b.carId = carId ∧ b.status ≠ "cancelled" ∧
        startDate ≤ b.endDate ∧ endDate ≥ b.startDate := by
  rw [available_iff_aux]
  constructor
  · rintro h ⟨b, hb, hc, hst, hov⟩
    exact h b hb hc hst hov
  · intro h b hb hc hst hov
    exact h ⟨b, hb, hc, hst, hov⟩

/-- C2: touching endpoints count as overlap.  When the only non-cancelled booking of
car `C` has the range `[s, e]` with `s ≤ e`, every check of a range starting at `e`
is unavailable and every check of a range starting at `e + 1` is available. -/
theorem checkDateAvailability_touching_endpoint (store : List Booking) (C : String)
    (b : Booking) (s e : Int) (hb : b ∈ store) (hC : b.carId = C)
    (hst : b.status ≠ "cancelled") (hs : b.startDate = s) (he : b.endDate = e) (hse : s ≤ e)
    (honly : ∀ b' ∈ store, b'.carId = C → b'.status ≠ "cancelled" → b' = b) :
    (∀ x, x ≥ e → (checkDateAvailability store C e x).available = false) ∧
      (∀ y, y ≥ e + 1 → (checkDateAvailability store C (e + 1) y).available = true) := by
  constructor
  · intro x hx
    rw [← Bool.not_eq_true, available_iff_aux]
    intro h
    exact h b hb hC hst ⟨by rw [he], by rw [hs]; exact le_trans hse hx⟩
  · intro y _
    rw [available_iff_aux]
    intro b' hb' hC' hst' hov
    have := honly b' hb' hC' hst'
    rw [this, he] at hov
    exact absurd hov.1 (by omega)

/-- Witness for C2: with the confirmed booking 2024-06-10 .. 2024-06-15 of `C1`, the
range 2024-06-15 .. 2024-06-20 is unavailable and 2024-06-16 .. 2024-06-20 is available. -/
theorem checkDateAvailability_touching_endpoint_witness :
    (checkDateAvailability [juneBooking] "C1" 19889 19894).available = false ∧
      (checkDateAvailability [juneBooking] "C1" 19890 19894).available = true :=
  have h := checkDateAvailability_touching_endpoint [juneBooking] "C1" juneBooking 19884 19889
    (List.mem_singleton.2 rfl) rfl (by decide) rfl rfl (by decide)
    (fun b' hb' _ _ => List.mem_singleton.1 hb')
  ⟨h.1 19894 (by decide), h.2 19894 (by decide)⟩

/-- C3: cancelled exclusion.  In a store with unique ids where `b` is the only
non-cancelled booking of car `C` that overlaps `[s, e]`, the range `[s, e]` is
available after `cancelBooking b.id`, and equally after
`updateBookingStatus b.id 'cancelled'`.  (That `b` itself is stored, belongs to `C`
and overlaps is not needed for the conclusion.) -/
theorem checkDateAvailability_after_cancel (store : List Booking) (now : Nat) (C : String)
    (b : Booking) (s e : Int) (hnodup : (store.map (fun x => x.id)).Nodup)
    (honly : ∀ b' ∈ store, b'.carId = C → b'.status ≠ "cancelled" →
      s ≤ b'.endDate → e ≥ b'.startDate → b' = b) :
    (checkDateAvailability (cancelBooking store now b.id).1 C s e).available = true ∧
      (checkDateAvailability (updateBookingStatus store now b.id "cancelled").1 C s e).available
        = true := by
  have key : (checkDateAvailability
      (updateBookingStatus store now b.id "cancelled").1 C s e).available = true := by
    rw [available_iff_aux]
    intro b' hb' hC' hst' hov'
    rcases mem_updateBookingStatus store now b.id "cancelled" hnodup b' hb' with ⟨h1, h2⟩ | h1
    · have := honly b' h1 hC' hst' hov'.1 hov'.2
      exact h2 (by rw [this])
    · exact hst' h1
  exact ⟨key, key⟩

/-- Witness for C3: the range 2024-06-10 .. 2024-06-15 of the only booking of `C1` is
unavailable before the cancellation and available after it. -/
theorem checkDateAvailability_after_cancel_witness :
    (checkDateAvailability [juneBooking] "C1" 19884 19889).available = false ∧
      (checkDateAvailability (cancelBooking [juneBooking] 1717000005000 juneBooking.id).1
        "C1" 19884 19889).available = true :=
  ⟨by decide,
    (checkDateAvailability_after_cancel [juneBooking] 1717000005000 "C1" juneBooking
      19884 19889 (by simp) (fun b' hb' _ _ _ _ => List.mem_singleton.1 hb')).1⟩

/-- C4 (as stated, refuted): the booking screen confirms a booking without consulting
`checkDateAvailability`, so confirming the range 2024-07-01 .. 2024-07-03 for car `C2`
twice is a standard-path store in which two confirmed bookings overlap and the day
2024-07-02 is held twice. -/
theorem standardPath_double_booking :
    StandardPath doubleBookedStore ∧ ¬ NoDoubleBooking doubleBookedStore ∧
      (holders doubleBookedStore "C2" 19906).length = 2 :=
  ⟨StandardPath.confirm sampleParams "u1" "" [19905, 19907] 1719000000000 1719000060001
      julyDraft
      (StandardPath.confirm sampleParams "u1" "" [19905, 19907] 1719000000000 1719000000001
        julyDraft StandardPath.empty rfl) rfl,
    by decide, by decide⟩

/-- C4 (amended): in every store reachable from the empty store by bookings confirmed
through the booking screen, each confirmed only after `checkDateAvailability` reported
the range available on the current store, no two distinct non-cancelled records of the
same car overlap, and every calendar day of every car is held by at most one
non-cancelled booking. -/
theorem checkedPath_noDoubleBooking (store : List Booking) (h : CheckedPath store) :
    NoDoubleBooking store ∧ ∀ carId d, (holders store carId d).length ≤ 1 := by
  have key : NoDoubleBooking store := by
    induction h with
    | empty => exact List.Pairwise.nil
    | confirm p uid notes presses createdAt now draft _ _ hav ih =>
      exact noDoubleBooking_createBooking _ now draft ih hav
  exact ⟨key, holders_length_le_one store key⟩

/-- Witness for C4 (amended): two disjoint ranges of car `C2`, each confirmed after a
successful check. -/
theorem checkedPath_noDoubleBooking_witness :
    CheckedPath checkedStore ∧ NoDoubleBooking checkedStore ∧
      (holders checkedStore "C2" 19906).length ≤ 1 :=
  have hp : CheckedPath checkedStore :=
    CheckedPath.confirm sampleParams "u1" "" [19908, 19910] 1719000000000 1719000060001
      laterDraft
      (CheckedPath.confirm sampleParams "u1" "" [19905, 19907] 1719000000000 1719000000001
        julyDraft CheckedPath.empty rfl (by decide)) rfl (by decide)
  ⟨hp, (checkedPath_noDoubleBooking checkedStore hp).1,
    (checkedPath_noDoubleBooking checkedStore hp).2 "C2" 19906⟩

/-- C5: for every pair of start and end dates selected on the booking screen (any
sequence of calendar presses that leaves both dates set), `calculateDays` returns
`max(1, end - start)`, where `end - start` is the signed difference in whole days; the
selection never holds an end date before the start date. -/
theorem calculateDays_eq_max_one_diff (presses : List Int) (notes : String) (s e : Int)
    (hs : (screenAfter presses notes).startDate = some s)
    (he : (screenAfter presses notes).endDate = some e) :
    s ≤ e ∧ (calculateDays (screenAfter presses notes) : Int) = max 1 (e - s) := by
  have hle : s ≤ e := by
    refine foldl_onDayPress_ordered presses initialState ?_ s e hs he
    intro s0 e0 h0
    simp [initialState] at h0
  refine ⟨hle, ?_⟩
  rw [calculateDays_of_some _ s e hs he]
  push_cast
  rw [abs_of_nonneg (by omega)]

/-- Witness for C5: pressing 2024-07-01 and then 2024-07-03 selects a range of signed
difference 2, and `calculateDays` returns 2. -/
theorem calculateDays_eq_max_one_diff_witness :
    (screenAfter [19905, 19907] "").startDate = some 19905 ∧
      (screenAfter [19905, 19907] "").endDate = some 19907 ∧
      calculateDays (screenAfter [19905, 19907] "") = 2 ∧
      (19905 : Int) ≤ 19907 ∧
      (calculateDays (screenAfter [19905, 19907] "") : Int) = max 1 ((19907 : Int) - 19905) :=
  ⟨rfl, rfl, rfl, calculateDays_eq_max_one_diff [19905, 19907] "" 19905 19907 rfl rfl⟩

/-- C6 (as stated, refuted): the booking confirmed for 2024-07-01 .. 2024-07-03 is stored
with `days = 2`, while the range contains 3 calendar days. -/
theorem stored_days_not_inclusive :
    handleConfirmBooking sampleParams "u1" (screenAfter [19905, 19907] "") 1719000000000
        = some julyDraft ∧
      ∃ b, (createBooking [] 1719000000001 julyDraft).1 = [b] ∧ b.startDate ≤ b.endDate ∧
        b.days = 2 ∧ (Finset.Icc b.startDate b.endDate).card = 3 ∧
        b.days ≠ max 1 (Finset.Icc b.startDate b.endDate).card :=
  ⟨rfl, _, rfl, by decide, rfl, by decide, by decide⟩

/-- C6 (amended): for every booking created through the standard path with
`startDate ≤ endDate`, the stored `days` field is the number of whole days from
`startDate` to `endDate` (the number of dates `d` with `startDate < d ≤ endDate`, that is
`endDate - startDate`), with a minimum of 1. -/
theorem stored_days_eq (p : RouteParams) (uid : String) (st : ScreenState) (createdAt : Nat)
    (draft : BookingData) (store : List Booking) (now : Nat)
    (h : handleConfirmBooking p uid st createdAt = some draft)
    (hle : draft.startDate ≤ draft.endDate) :
    ∃ b, (createBooking store now draft).1 = store ++ [b] ∧
      b.startDate = draft.startDate ∧ b.endDate = draft.endDate ∧
      b.days = max 1 (Finset.Ioc b.startDate b.endDate).card ∧
      (b.days : Int) = max 1 (b.endDate - b.startDate) := by
  obtain ⟨hs, he, hd, -⟩ := handleConfirmBooking_eq_some p uid st createdAt draft h
  refine ⟨newBooking (mkBookingId now) draft, rfl, rfl, rfl, ?_, ?_⟩
  · show draft.days = max 1 (Finset.Ioc draft.startDate draft.endDate).card
    rw [hd, calculateDays_of_some st _ _ hs he, Int.card_Ioc]
    congr 1
    omega
  · show (draft.days : Int) = max 1 (draft.endDate - draft.startDate)
    rw [hd, calculateDays_of_some st _ _ hs he]
    push_cast
    rw [abs_of_nonneg (by omega)]

/-- Witness for C6 (amended): the booking for 2024-07-01 .. 2024-07-03 is stored with
`days = 2`. -/
theorem stored_days_eq_witness :
    ∃ b, (createBooking [] 1719000000001 julyDraft).1 = [] ++ [b] ∧
      b.startDate = julyDraft.startDate ∧ b.endDate = julyDraft.endDate ∧
      b.days = max 1 (Finset.Ioc b.startDate b.endDate).card ∧
      (b.days : Int) = max 1 (b.endDate - b.startDate) :=
  stored_days_eq sampleParams "u1" (screenAfter [19905, 19907] "") 1719000000000 julyDraft []
    1719000000001 rfl (by decide)

/-- C7: with the same date as start and end `calculateDays` returns 1, and it returns 0
exactly when the start date or the end date is unset. -/
theorem calculateDays_same_day_and_zero :
    (∀ (d : Int) (notes : String),
        calculateDays { startDate := some d, endDate := some d, notes := notes } = 1) ∧
      ∀ st : ScreenState, calculateDays st = 0 ↔ st.startDate = none ∨ st.endDate = none := by
  constructor
  · intro d notes
    rw [calculateDays_some]
    simp
  · rintro ⟨s, e, notes⟩
    cases s with
    | none => simp [calculateDays]
    | some s =>
      cases e with
      | none => simp [calculateDays]
      | some e =>
        rw [calculateDays_some]
        simp only [reduceCtorEq, or_self, iff_false]
        omega

/-- C8: the record that `handleConfirmBooking` passes to `createBooking` has
`totalPrice = car.pricePerDay * days`, where `days` is the value of `calculateDays`
for the selected range. -/
theorem handleConfirmBooking_totalPrice (p : RouteParams) (uid : String) (st : ScreenState)
    (createdAt : Nat) (draft : BookingData)
    (h : handleConfirmBooking p uid st createdAt = some draft) :
    draft.days = calculateDays st ∧ draft.totalPrice = p.car.pricePerDay * draft.days := by
  obtain ⟨-, -, hd, ht, -⟩ := handleConfirmBooking_eq_some p uid st createdAt draft h
  exact ⟨hd, by rw [ht, hd]⟩

/-- Witness for C8: 2024-07-01 .. 2024-07-03 at 50 per day gives `days = 2` and
`totalPrice = 100`. -/
theorem handleConfirmBooking_totalPrice_witness :
    handleConfirmBooking sampleParams "u1" (screenAfter [19905, 19907] "") 1719000000000
        = some julyDraft ∧
      sampleParams.car.pricePerDay = 50 ∧ julyDraft.days = 2 ∧ julyDraft.totalPrice = 100 ∧
      julyDraft.days = calculateDays (screenAfter [19905, 19907] "") ∧
      julyDraft.totalPrice = sampleParams.car.pricePerDay * julyDraft.days :=
  ⟨rfl, rfl, rfl, rfl,
    handleConfirmBooking_totalPrice sampleParams "u1" (screenAfter [19905, 19907] "")
      1719000000000 julyDraft rfl⟩

/-- C9: after any sequence of calendar presses from the empty selection, whenever both
dates are set the start date is not after the end date; hence every record that
`handleConfirmBooking` submits has `startDate ≤ endDate` and `days ≥ 1`. -/
theorem onDayPress_range_ordered (presses : List Int) (notes : String) :
    (∀ s e, (screenAfter presses notes).startDate = some s →
        (screenAfter presses notes).endDate = some e → s ≤ e) ∧
      ∀ (p : RouteParams) (uid : String) (createdAt : Nat) (draft : BookingData),
        handleConfirmBooking p uid (screenAfter presses notes) createdAt = some draft →
          draft.startDate ≤ draft.endDate ∧ draft.days ≥ 1 := by
  have hinv : ∀ s e, (screenAfter presses notes).startDate = some s →
      (screenAfter presses notes).endDate = some e → s ≤ e := by
    intro s e hs he
    refine foldl_onDayPress_ordered presses initialState ?_ s e hs he
    intro s e hs
    simp [initialState] at hs
  refine ⟨hinv, ?_⟩
  intro p uid createdAt draft h
  obtain ⟨hs, he, hd, -⟩ := handleConfirmBooking_eq_some p uid _ createdAt draft h
  refine ⟨hinv _ _ hs he, ?_⟩
  rw [hd, calculateDays_of_some _ _ _ hs he]
  exact le_max_left 1 _

/-- Witness for C9: pressing 2024-07-03, then 2024-07-01 (rejected as an end date), then
2024-07-03 selects the single day 2024-07-03, and the submitted record is ordered
with `days = 1`. -/
theorem onDayPress_range_ordered_witness :
    (screenAfter [19907, 19905, 19907] "").startDate = some 19907 ∧
      (screenAfter [19907, 19905, 19907] "").endDate = some 19907 ∧
      ∃ draft, handleConfirmBooking sampleParams "u1" (screenAfter [19907, 19905, 19907] "")
          1719000000000 = some draft ∧ draft.days = 1 ∧
        draft.startDate ≤ draft.endDate ∧ draft.days ≥ 1 :=
  ⟨rfl, rfl, _, rfl, rfl,
    (onDayPress_range_ordered [19907, 19905, 19907] "").2 sampleParams "u1" 1719000000000 _ rfl⟩

/-- C10: `getBookingById` returns success with a stored record whose id is the requested
one exactly when the store contains a record with that id, and returns the failure
`Booking not found` exactly when no record has that id. -/
theorem getBookingById_found_iff (store : List Booking) (id : String) :
    ((∃ b, getBookingById store id = .ok b ∧ b ∈ store ∧ b.id = id) ↔
        ∃ b ∈ store, b.id = id) ∧
      (getBookingById store id = .error "Booking not found" ↔ ¬ ∃ b ∈ store, b.id = id) := by
  unfold getBookingById
  cases hfind : store.find? (fun b => b.id == id) with
  | none =>
    have hnone : ∀ b ∈ store, ¬ b.id = id := by
      intro b hb
      have := List.find?_eq_none.1 hfind b hb
      simpa using this
    constructor
    · constructor
      · rintro ⟨b, hb, -⟩
        simp at hb
      · rintro ⟨b, hb, hid⟩
        exact absurd hid (hnone b hb)
    · simp only [true_iff]
      rintro ⟨b, hb, hid⟩
      exact hnone b hb hid
  | some b =>
    have hmem : b ∈ store := List.mem_of_find?_eq_some hfind
    have hid : b.id = id := by
      have := List.find?_some hfind
      simpa using this
    constructor
    · constructor
      · intro _
        exact ⟨b, hmem, hid⟩
      · intro _
        exact ⟨b, rfl, hmem, hid⟩
    · constructor
      · intro h
        simp at h
      · intro h
        exact absurd ⟨b, hmem, hid⟩ h

/-- C11: `getUserBookings` returns a permutation of exactly the stored records of that
user (none of another user, none of this user's missing), arranged so that `createdAt`
is non-increasing from first to last. -/
theorem getUserBookings_perm_sorted (store : List Booking) (userId : String) :
    (getUserBookings store userId).success = true ∧
      (getUserBookings store userId).bookings.Perm
        (store.filter (fun b => b.userId == userId)) ∧
      (∀ b, b ∈ (getUserBookings store userId).bookings ↔ b ∈ store ∧ b.userId = userId) ∧
      (getUserBookings store userId).bookings.Pairwise
        (fun a b => a.createdAt ≥ b.createdAt) := by
  refine ⟨rfl, List.perm_insertionSort _ _, ?_, sorted_insertionSort_createdAtGE _⟩
  intro b
  unfold getUserBookings
  simp only
  rw [(List.perm_insertionSort createdAtGE _).mem_iff]
  simp

/-- C12: `getCarBookings` returns a permutation of exactly the stored records of that
car, arranged so that `startDate` is non-decreasing from first to last. -/
theorem getCarBookings_perm_sorted (store : List Booking) (carId : String) :
    (getCarBookings store carId).success = true ∧
      (getCarBookings store carId).bookings.Perm
        (store.filter (fun b => b.carId == carId)) ∧
      (∀ b, b ∈ (getCarBookings store carId).bookings ↔ b ∈ store ∧ b.carId = carId) ∧
      (getCarBookings store carId).bookings.Pairwise
        (fun a b => a.startDate ≤ b.startDate) :=
  ⟨rfl, List.perm_insertionSort _ _, mem_getCarBookings store carId,
    sorted_insertionSort_startDateLE _⟩

/-- C13: `updateBookingStatus` succeeds exactly when the store contains a record with
that id; after a success `getBookingById` returns a record with the new status and
`updatedAt` equal to the time of the update; when no record has the id the result is
`Booking not found` and the store is unchanged. -/
theorem updateBookingStatus_result (store : List Booking) (now : Nat)
    (bookingId status : String) :
    ((updateBookingStatus store now bookingId status).2.success = true ↔
        ∃ b ∈ store, b.id = bookingId) ∧
      ((∃ b ∈ store, b.id = bookingId) →
        ∃ b, getBookingById (updateBookingStatus store now bookingId status).1 bookingId
            = .ok b ∧ b.id = bookingId ∧ b.status = status ∧ b.updatedAt = some now) ∧
      ((¬ ∃ b ∈ store, b.id = bookingId) →
        updateBookingStatus store now bookingId status =
          (store, { success := false, error := some "Booking not found" })) := by
  have habs : (¬ ∃ b ∈ store, b.id = bookingId) →
      updateBookingStatus store now bookingId status =
        (store, { success := false, error := some "Booking not found" }) := by
    intro h
    exact updateBookingStatus_absent store now bookingId status
      (fun b hb hid => h ⟨b, hb, hid⟩)
  refine ⟨?_, ?_, habs⟩
  · constructor
    · intro hs
      by_contra h
      rw [habs h] at hs
      simp at hs
    · intro h
      obtain ⟨l1, b, l2, -, -, -, heq⟩ := updateBookingStatus_found store now bookingId status h
      rw [heq]
  · intro h
    obtain ⟨l1, b, l2, -, hl1, hb, heq⟩ := updateBookingStatus_found store now bookingId status h
    rw [heq]
    exact ⟨setStatus b status now, getBookingById_split l1 l2 _ bookingId hl1 hb, hb, rfl, rfl⟩

/-- Witness for C13: moving the stored June booking to `ready` succeeds and the lookup
shows the new status and stamp; the same call for an unknown id fails and changes nothing. -/
theorem updateBookingStatus_result_witness :
    (∃ b, getBookingById
        (updateBookingStatus [juneBooking] 1717000005000 "booking-1717000000000" "ready").1
          "booking-1717000000000" = .ok b ∧ b.id = "booking-1717000000000" ∧
        b.status = "ready" ∧ b.updatedAt = some 1717000005000) ∧
      updateBookingStatus [juneBooking] 1717000005000 "booking-0" "ready" =
        ([juneBooking], { success := false, error := some "Booking not found" }) :=
  ⟨(updateBookingStatus_result [juneBooking] 1717000005000 "booking-1717000000000" "ready").2.1
      ⟨juneBooking, List.mem_singleton.2 rfl, rfl⟩,
    (updateBookingStatus_result [juneBooking] 1717000005000 "booking-0" "ready").2.2
      (by decide)⟩

/-- C14 (as stated, refuted): a confirmed booking moves to `completed` in one successful
`updateBookingStatus`, a cancelled booking moves back to `confirmed`, and a completed
booking moves to `ready`. -/
theorem statusAfter_ignores_lifecycle :
    juneBooking.status = "confirmed" ∧
      statusAfter [juneBooking] 1717000005000 juneBooking.id "completed" = some "completed" ∧
      cancelledBooking.status = "cancelled" ∧
      statusAfter [cancelledBooking] 1717000005000 cancelledBooking.id "confirmed"
        = some "confirmed" ∧
      completedBooking.status = "completed" ∧
      statusAfter [completedBooking] 1717000005000 completedBooking.id "ready"
        = some "ready" := by
  decide

/-- C14 (amended): as a step relation over `updateBookingStatus`, from a stored booking
in any status (`confirmed`, `completed` and `cancelled` included) every target status is
reached in one successful transition; the store keeps no transition table, so the
status of a cancelled booking can change again. -/
theorem statusAfter_any_target (store : List Booking) (now : Nat) (bookingId target : String)
    (b : Booking) (h : getBookingById store bookingId = .ok b) :
    statusAfter store now bookingId target = some target := by
  obtain ⟨l1, l2, hsplit, hl1, hb⟩ := getBookingById_ok_split store bookingId b h
  obtain ⟨m1, c, m2, -, hm1, hc, heq⟩ :=
    updateBookingStatus_found store now bookingId target
      ⟨b, by rw [hsplit]; simp, hb⟩
  unfold statusAfter
  simp only [heq, if_true]
  rw [getBookingById_split m1 m2 (setStatus c target now) bookingId hm1 hc]
  rfl

/-- Witness for C14 (amended): the cancelled booking is set back to `confirmed`. -/
theorem statusAfter_any_target_witness :
    getBookingById [cancelledBooking] "booking-1717000000001" = .ok cancelledBooking ∧
      cancelledBooking.status = "cancelled" ∧
      statusAfter [cancelledBooking] 1717000005000 "booking-1717000000001" "confirmed"
        = some "confirmed" :=
  ⟨rfl, rfl,
    statusAfter_any_target [cancelledBooking] 1717000005000 "booking-1717000000001"
      "confirmed" cancelledBooking rfl⟩

/-- C15: the store performs no transition-table validation.  For the booking that
`getBookingById` finds under an id, whatever its status (so in particular every
non-cancelled one), and for every target status (so in particular each of the five
lifecycle statuses), `updateBookingStatus` succeeds and the booking becomes the same
record with status equal to the target and `updatedAt` stamped. -/
theorem updateBookingStatus_no_validation (store : List Booking) (now : Nat)
    (bookingId target : String) (b : Booking)
    (h : getBookingById store bookingId = .ok b) :
    (updateBookingStatus store now bookingId target).2 = { success := true, error := none } ∧
      getBookingById (updateBookingStatus store now bookingId target).1 bookingId
        = .ok (setStatus b target now) ∧
      (setStatus b target now).status = target := by
  obtain ⟨l1, l2, hsplit, hl1, hb⟩ := getBookingById_ok_split store bookingId b h
  obtain ⟨m1, c, m2, hsplit2, hm1, hc, heq⟩ :=
    updateBookingStatus_found store now bookingId target
      ⟨b, by rw [hsplit]; simp, hb⟩
  have hcb : c = b := by
    have := getBookingById_split m1 m2 c bookingId hm1 hc
    rw [← hsplit2, h] at this
    injection this with e
    exact e.symm
  subst hcb
  rw [heq]
  exact ⟨rfl, getBookingById_split m1 m2 _ bookingId hm1 hc, rfl⟩

/-- Witness for C15: the confirmed June booking jumps to `ongoing`. -/
theorem updateBookingStatus_no_validation_witness :
    juneBooking.status = "confirmed" ∧
      (updateBookingStatus [juneBooking] 1717000005000 "booking-1717000000000" "ongoing").2
        = { success := true, error := none } ∧
      getBookingById
          (updateBookingStatus [juneBooking] 1717000005000 "booking-1717000000000" "ongoing").1
          "booking-1717000000000"
        = .ok (setStatus juneBooking "ongoing" 1717000005000) ∧
      (setStatus juneBooking "ongoing" 1717000005000).status = "ongoing" :=
  ⟨rfl,
    updateBookingStatus_no_validation [juneBooking] 1717000005000 "booking-1717000000000"
      "ongoing" juneBooking rfl⟩

/-- C16 (as stated, refuted): after creating a confirmed booking, `updateBookingStatus`
with the status `archived` succeeds, and the stored booking then carries a status that is
none of the five. -/
theorem runOps_status_outside_lifecycle :
    (∀ op ∈ archiveOps, op.createsConfirmed) ∧
      ∃ b ∈ runOps archiveOps, b.status = "archived" ∧ b.status ∉ statuses := by
  refine ⟨?_, ?_⟩
  · intro op hop
    simp only [archiveOps, List.mem_cons, List.mem_singleton, List.not_mem_nil, or_false] at hop
    rcases hop with rfl | rfl
    · exact (rfl : julyDraft.status = "confirmed")
    · trivial
  · exact ⟨setStatus (newBooking (mkBookingId 1719000000001) julyDraft) "archived"
      1719000005000, by decide, rfl, by decide⟩

/-- C16 (amended): in every store reached from the empty store by `createBooking` of
drafts with status `confirmed` and any sequence of `updateBookingStatus`, `updateBooking`,
`cancelBooking` and `deleteBooking` calls whose status arguments (the status handed to
`updateBookingStatus`, the status named in `updates`) are among the five lifecycle
statuses, every stored booking has one of the five statuses. -/
theorem runOps_status_valid (ops : List StoreOp) (h : ∀ op ∈ ops, op.statusArgsValid) :
    ∀ b ∈ runOps ops, b.status ∈ statuses :=
  foldl_applyOp_status ops [] (fun b hb => absurd hb (List.not_mem_nil b)) h

/-- Witness for C16 (amended): create, move to `ready`, cancel. -/
theorem runOps_status_valid_witness :
    (∀ op ∈ lifecycleOps, op.statusArgsValid) ∧ ∀ b ∈ runOps lifecycleOps, b.status ∈ statuses :=
  have h : ∀ op ∈ lifecycleOps, op.statusArgsValid := by
    intro op hop
    simp only [lifecycleOps, List.mem_cons, List.mem_singleton, List.not_mem_nil, or_false] at hop
    rcases hop with rfl | rfl | rfl
    · exact (rfl : julyDraft.status = "confirmed")
    · show "ready" ∈ statuses
      decide
    · trivial
  ⟨h, runOps_status_valid lifecycleOps h⟩

/-- C17 (as stated, refuted): two `createBooking` calls that read the same clock value
both succeed, the second returns the id that the first record already carries, and the
resulting store holds two records with one id. -/
theorem createBooking_id_collision :
    (createBooking (createBooking [] 1719000000001 julyDraft).1 1719000000001
        laterDraft).2.success = true ∧
      (∃ b ∈ (createBooking [] 1719000000001 julyDraft).1,
        b.id = (createBooking (createBooking [] 1719000000001 julyDraft).1 1719000000001
          laterDraft).2.bookingId) ∧
      ¬ (collidingStore.map (fun b => b.id)).Nodup := by
  refine ⟨rfl, ⟨newBooking (mkBookingId 1719000000001) julyDraft, ?_, rfl⟩, ?_⟩
  · simp [createBooking_store]
  · simp [collidingStore, createBooking_store, newBooking, julyDraft, laterDraft]

/-- C17 (amended): for every store built from the empty store by `createBooking` calls
of drafts that carry no id of their own, `createBooking` at a clock reading different
from the readings of those calls succeeds with a `bookingId` that differs from the id of
every stored record; and when the readings of the calls are pairwise different, no two
stored records share an id. -/
theorem createAll_ids_unique (calls : List (Nat × BookingData))
    (hid : ∀ c ∈ calls, c.2.id = none) :
    (∀ (now : Nat) (d : BookingData), now ∉ calls.map Prod.fst →
        (createBooking (createAll calls) now d).2.success = true ∧
          ∀ b ∈ createAll calls,
            b.id ≠ (createBooking (createAll calls) now d).2.bookingId) ∧
      ((calls.map Prod.fst).Nodup → ((createAll calls).map (fun b => b.id)).Nodup) := by
  constructor
  · intro now d hnow
    refine ⟨rfl, ?_⟩
    intro b hb hbid
    have hmem : b.id ∈ (createAll calls).map (fun b => b.id) := List.mem_map_of_mem _ hb
    rw [createAll_ids calls hid, List.mem_map] at hmem
    obtain ⟨t, ht, hte⟩ := hmem
    have : mkBookingId t = mkBookingId now := by rw [hte, hbid]; rfl
    exact hnow (mkBookingId_injective this ▸ ht)
  · intro hnodup
    rw [createAll_ids calls hid]
    exact hnodup.map mkBookingId_injective

/-- Witness for C17 (amended): two calls at different clock readings leave two ids, and a
third call at a later reading gets an id that neither record carries. -/
theorem createAll_ids_unique_witness :
    ((createAll sampleCalls).map (fun b => b.id)).Nodup ∧
      ∀ b ∈ createAll sampleCalls,
        b.id ≠ (createBooking (createAll sampleCalls) 1719000120001 julyDraft).2.bookingId :=
  have h := createAll_ids_unique sampleCalls (by decide)
  ⟨h.2 (by decide), (h.1 1719000120001 julyDraft (by decide)).2⟩

/-- C18 (as stated, refuted): when the store already holds a record with the returned id
(a second call at the same clock reading), the lookup of the returned id gives the older
record, whose dates are not the draft's; and for a draft that carries its own `id` the
lookup of the returned id fails. -/
theorem createBooking_lookup_mismatch :
    getBookingById collidingStore
        (createBooking (createBooking [] 1719000000001 julyDraft).1 1719000000001
          laterDraft).2.bookingId
        = .ok (newBooking (mkBookingId 1719000000001) julyDraft) ∧
      (newBooking (mkBookingId 1719000000001) julyDraft).startDate ≠ laterDraft.startDate ∧
      getBookingById (createBooking [] 1719000000001 draftWithId).1
        (createBooking [] 1719000000001 draftWithId).2.bookingId
        = .error "Booking not found" := by
  refine ⟨?_, by decide, ?_⟩
  · exact getBookingById_split [] _ _ _ (fun x hx => absurd hx (List.not_mem_nil x)) rfl
  · apply getBookingById_absent
    intro b hb
    simp only [createBooking_store, List.nil_append, List.mem_singleton] at hb
    subst hb
    decide

/-- C18 (amended): for every store that holds no record with the returned id and every
draft that carries no id of its own, after `createBooking` the lookup of the returned
`bookingId` succeeds and returns the newly inserted record (the last record of the
store), whose id is `bookingId` and whose other fields are the draft's. -/
theorem createBooking_getBookingById (store : List Booking) (now : Nat) (d : BookingData)
    (hfresh : ∀ b ∈ store, b.id ≠ (createBooking store now d).2.bookingId)
    (hid : d.id = none) :
    ∃ b, getBookingById (createBooking store now d).1 (createBooking store now d).2.bookingId
          = .ok b ∧
      (createBooking store now d).1 = store ++ [b] ∧
      b.id = (createBooking store now d).2.bookingId ∧
      b.userId = d.userId ∧ b.carId = d.carId ∧ b.carDetails = d.carDetails ∧
      b.tripDetails = d.tripDetails ∧ b.startDate = d.startDate ∧ b.endDate = d.endDate ∧
      b.days = d.days ∧ b.totalPrice = d.totalPrice ∧ b.notes = d.notes ∧
      b.status = d.status ∧ b.createdAt = d.createdAt ∧ b.updatedAt = d.updatedAt := by
  have hbid : (newBooking (mkBookingId now) d).id = mkBookingId now := by
    simp [newBooking, hid]
  refine ⟨newBooking (mkBookingId now) d, ?_, rfl, hbid, rfl, rfl, rfl, rfl, rfl, rfl, rfl,
    rfl, rfl, rfl, rfl, rfl⟩
  exact getBookingById_split store [] _ _ hfresh hbid

/-- Witness for C18 (amended): the first booking created in the empty store is found
under the returned id. -/
theorem createBooking_getBookingById_witness :
    ∃ b, getBookingById (createBooking [] 1719000000001 julyDraft).1
          (createBooking [] 1719000000001 julyDraft).2.bookingId = .ok b ∧
      (createBooking [] 1719000000001 julyDraft).1 = [] ++ [b] ∧
      b.id = (createBooking [] 1719000000001 julyDraft).2.bookingId ∧
      b.userId = julyDraft.userId ∧ b.carId = julyDraft.carId ∧
      b.carDetails = julyDraft.carDetails ∧ b.tripDetails = julyDraft.tripDetails ∧
      b.startDate = julyDraft.startDate ∧ b.endDate = julyDraft.endDate ∧
      b.days = julyDraft.days ∧ b.totalPrice = julyDraft.totalPrice ∧
      b.notes = julyDraft.notes ∧ b.status = julyDraft.status ∧
      b.createdAt = julyDraft.createdAt ∧ b.updatedAt = julyDraft.updatedAt :=
  createBooking_getBookingById [] 1719000000001 julyDraft
    (fun b hb => absurd hb (List.not_mem_nil b)) rfl

/-- C19 (as stated, refuted): `updateBooking` with an `updates` argument that names `id`,
`userId`, `carId` and `createdAt` succeeds and overwrites all four in the stored record. -/
theorem updateBooking_overwrites_core_fields :
    coreFields juneBooking = ("booking-1717000000000", "u1", "C1", 1717000000000) ∧
      (updateBooking [juneBooking] 1717000005000 "booking-1717000000000" coreUpdates).2.success
        = true ∧
      (updateBooking [juneBooking] 1717000005000 "booking-1717000000000" coreUpdates).1.map
        coreFields = [("booking-2", "u2", "C9", 0)] := by
  decide

/-- C19 (amended): for every `updates` argument that names none of `id`, `userId`,
`carId` and `createdAt`, `updateBooking` leaves these four fields of every stored record
as they were, record by record in store order; in particular the record found under the
id before the call is found under it afterwards with the same four fields. -/
theorem updateBooking_core_fields (store : List Booking) (now : Nat) (bookingId : String)
    (updates : BookingUpdates) (h1 : updates.id = none) (h2 : updates.userId = none)
    (h3 : updates.carId = none) (h4 : updates.createdAt = none) :
    (updateBooking store now bookingId updates).1.map coreFields = store.map coreFields ∧
      ∀ b, getBookingById store bookingId = .ok b →
        ∃ b', getBookingById (updateBooking store now bookingId updates).1 bookingId = .ok b' ∧
          b'.id = b.id ∧ b'.userId = b.userId ∧ b'.carId = b.carId ∧
          b'.createdAt = b.createdAt := by
  constructor
  · by_cases hex : ∃ b ∈ store, b.id = bookingId
    · obtain ⟨l1, b, l2, hsplit, -, -, heq⟩ := updateBooking_found store now bookingId updates hex
      rw [heq, hsplit]
      simp [coreFields_mergeUpdates b updates now h1 h2 h3 h4]
    · rw [updateBooking_absent store now bookingId updates
        (fun b hb hid => hex ⟨b, hb, hid⟩)]
  · intro b hb
    obtain ⟨l1, l2, hsplit, hl1, hbid⟩ := getBookingById_ok_split store bookingId b hb
    obtain ⟨m1, c, m2, hsplit2, hm1, hc, heq⟩ :=
      updateBooking_found store now bookingId updates ⟨b, by rw [hsplit]; simp, hbid⟩
    have hcb : c = b := by
      have := getBookingById_split m1 m2 c bookingId hm1 hc
      rw [← hsplit2, hb] at this
      injection this with e
      exact e.symm
    subst hcb
    have hcore := coreFields_mergeUpdates c updates now h1 h2 h3 h4
    simp only [coreFields, Prod.mk.injEq] at hcore
    refine ⟨mergeUpdates c updates now, ?_, hcore.1, hcore.2.1, hcore.2.2.1, hcore.2.2.2⟩
    rw [heq]
    exact getBookingById_split m1 m2 _ bookingId hm1 (by rw [hcore.1]; exact hc)

/-- Witness for C19 (amended): editing the notes and the end date of the June booking
leaves its four core fields as they were. -/
theorem updateBooking_core_fields_witness :
    (updateBooking [juneBooking] 1717000005000 "booking-1717000000000" notesUpdates).1.map
        coreFields = [juneBooking].map coreFields ∧
      ∃ b', getBookingById
          (updateBooking [juneBooking] 1717000005000 "booking-1717000000000" notesUpdates).1
          "booking-1717000000000" = .ok b' ∧
        b'.id = juneBooking.id ∧ b'.userId = juneBooking.userId ∧
        b'.carId = juneBooking.carId ∧ b'.createdAt = juneBooking.createdAt :=
  have h := updateBooking_core_fields [juneBooking] 1717000005000 "booking-1717000000000"
    notesUpdates rfl rfl rfl rfl
  ⟨h.1, h.2 juneBooking rfl⟩

/-- C20: for an existing id `updateBooking` returns success and replaces the first
record with that id by the merge, all other records staying as and where they were;
in the merge every field that `updates` names (other than `updatedAt`) has the value
from `updates`, every field it does not name keeps its previous value, and `updatedAt`
is the time of the call whatever `updates` says; for an absent id the result is
`Booking not found` and the store is unchanged. -/
theorem updateBooking_merge (store : List Booking) (now : Nat) (bookingId : String)
    (updates : BookingUpdates) :
    ((∃ b ∈ store, b.id = bookingId) →
        ∃ l1 b l2, store = l1 ++ b :: l2 ∧ (∀ x ∈ l1, x.id ≠ bookingId) ∧ b.id = bookingId ∧
          updateBooking store now bookingId updates =
            (l1 ++ mergeUpdates b updates now :: l2, { success := true, error := none })) ∧
      ((¬ ∃ b ∈ store, b.id = bookingId) →
        updateBooking store now bookingId updates =
          (store, { success := false, error := some "Booking not found" })) ∧
      ∀ b : Booking,
        (mergeUpdates b updates now).updatedAt = some now ∧
        Merged updates.id b.id (mergeUpdates b updates now).id ∧
        Merged updates.userId b.userId (mergeUpdates b updates now).userId ∧
        Merged updates.carId b.carId (mergeUpdates b updates now).carId ∧
        Merged updates.carDetails b.carDetails (mergeUpdates b updates now).carDetails ∧
        Merged updates.tripDetails b.tripDetails (mergeUpdates b updates now).tripDetails ∧
        Merged updates.startDate b.startDate (mergeUpdates b updates now).startDate ∧
        Merged updates.endDate b.endDate (mergeUpdates b updates now).endDate ∧
        Merged updates.days b.days (mergeUpdates b updates now).days ∧
        Merged updates.totalPrice b.totalPrice (mergeUpdates b updates now).totalPrice ∧
        Merged updates.notes b.notes (mergeUpdates b updates now).notes ∧
        Merged updates.status b.status (mergeUpdates b updates now).status ∧
        Merged updates.createdAt b.createdAt (mergeUpdates b updates now).createdAt := by
  refine ⟨updateBooking_found store now bookingId updates, ?_, ?_⟩
  · intro h
    exact updateBooking_absent store now bookingId updates (fun b hb hid => h ⟨b, hb, hid⟩)
  · intro b
    exact ⟨rfl, merged_getD _ _, merged_getD _ _, merged_getD _ _, merged_getD _ _,
      merged_getD _ _, merged_getD _ _, merged_getD _ _, merged_getD _ _, merged_getD _ _,
      merged_getD _ _, merged_getD _ _, merged_getD _ _⟩

/-- Witness for C20: the June booking gets new notes and a new end date, keeps its start
date, and is stamped with the time of the call although `updates` names another
`updatedAt`; the same call for an unknown id fails and changes nothing. -/
theorem updateBooking_merge_witness :
    (∃ l1 b l2, [juneBooking] = l1 ++ b :: l2 ∧ (∀ x ∈ l1, x.id ≠ "booking-1717000000000") ∧
        b.id = "booking-1717000000000" ∧
        updateBooking [juneBooking] 1717000005000 "booking-1717000000000" notesUpdates =
          (l1 ++ mergeUpdates b notesUpdates 1717000005000 :: l2,
            { success := true, error := none })) ∧
      (mergeUpdates juneBooking notesUpdates 1717000005000).notes = "child seat" ∧
      (mergeUpdates juneBooking notesUpdates 1717000005000).endDate = 19890 ∧
      (mergeUpdates juneBooking notesUpdates 1717000005000).startDate = 19884 ∧
      (mergeUpdates juneBooking notesUpdates 1717000005000).updatedAt = some 1717000005000 ∧
      updateBooking [juneBooking] 1717000005000 "booking-0" notesUpdates =
        ([juneBooking], { success := false, error := some "Booking not found" }) :=
  have h := updateBooking_merge [juneBooking] 1717000005000 "booking-1717000000000" notesUpdates
  ⟨h.1 ⟨juneBooking, List.mem_singleton.2 rfl, rfl⟩, rfl, rfl, rfl,
    (h.2.2 juneBooking).1,
    (updateBooking_merge [juneBooking] 1717000005000 "booking-0" notesUpdates).2.1
      (by decide)⟩

/-- C21: after `deleteBooking` the lookup of the deleted id returns `Booking not found`,
and the store consists of exactly the records whose id differs from the argument,
unchanged and in their previous relative order; no other record is removed, even when
it belongs to the same user or car. -/
theorem deleteBooking_removes_id (store : List Booking) (bookingId : String) :
    getBookingById (deleteBooking store bookingId).1 bookingId = .error "Booking not found" ∧
      (deleteBooking store bookingId).1 = store.filter (fun b => decide (b.id ≠ bookingId)) ∧
      (∀ b, b ∈ (deleteBooking store bookingId).1 ↔ b ∈ store ∧ b.id ≠ bookingId) ∧
      (deleteBooking store bookingId).1.Sublist store ∧
      (deleteBooking store bookingId).2 = { success := true, error := none } := by
  have hmem : ∀ b, b ∈ (deleteBooking store bookingId).1 ↔ b ∈ store ∧ b.id ≠ bookingId := by
    intro b
    simp [deleteBooking]
  refine ⟨?_, ?_, hmem, ?_, rfl⟩
  · exact getBookingById_absent _ bookingId (fun b hb => ((hmem b).1 hb).2)
  · unfold deleteBooking
    simp only
    congr 1
    funext b
    by_cases hb : b.id = bookingId <;> simp [hb]
  · exact List.filter_sublist _

/-- C22 (as stated, refuted): `deleteBooking` of an id that no stored record carries
reports success, not a failure, and leaves the store as it was. -/
theorem deleteBooking_absent_reports_success :
    (∀ b ∈ [juneBooking], b.id ≠ "booking-0") ∧
      deleteBooking [juneBooking] "booking-0" =
        ([juneBooking], { success := true, error := none }) ∧
      (deleteBooking [juneBooking] "booking-0").2.success ≠ false := by
  decide

/-- C22 (amended): for every store and every id that no stored record carries,
`deleteBooking` reports success and leaves the store unchanged. -/
theorem deleteBooking_absent (store : List Booking) (bookingId : String)
    (h : ∀ b ∈ store, b.id ≠ bookingId) :
    deleteBooking store bookingId = (store, { success := true, error := none }) := by
  unfold deleteBooking
  congr 1
  rw [List.filter_eq_self]
  intro b hb
  simpa using h b hb

/-- Witness for C22 (amended): deleting an unknown id from the store of the two July
bookings. -/
theorem deleteBooking_absent_witness :
    (∀ b ∈ checkedStore, b.id ≠ "booking-0") ∧
      deleteBooking checkedStore "booking-0" =
        (checkedStore, { success := true, error := none }) :=
  ⟨by decide, deleteBooking_absent checkedStore "booking-0" (by decide)⟩

/-- C23: the read operations `getBookingById`, `getUserBookings`, `getCarBookings` and
`checkDateAvailability` hand the store back as it was (the two sorts act on the array
that `filter` returned) and return what the store-free readings of the same functions
return; hence the store is the same after any sequence of reads, and `getBookingById`
repeated after any such sequence returns the identical result. -/
theorem reads_leave_store_unchanged (store : List Booking) :
    (∀ bookingId,
        Threaded.getBookingById store bookingId = (store, getBookingById store bookingId)) ∧
      (∀ userId,
        Threaded.getUserBookings store userId = (store, getUserBookings store userId)) ∧
      (∀ carId, Threaded.getCarBookings store carId = (store, getCarBookings store carId)) ∧
      (∀ carId startDate endDate,
        Threaded.checkDateAvailability store carId startDate endDate =
          (store, checkDateAvailability store carId startDate endDate)) ∧
      (∀ calls, runReads store calls = store) ∧
      (∀ calls bookingId,
        (Threaded.getBookingById (runReads store calls) bookingId).2 =
          (Threaded.getBookingById store bookingId).2) ∧
      ∀ bookingId,
        (Threaded.getBookingById (Threaded.getBookingById store bookingId).1 bookingId).2 =
          (Threaded.getBookingById store bookingId).2 := by
  refine ⟨threaded_getBookingById store, fun _ => rfl, fun _ => rfl,
    threaded_checkDateAvailability store, runReads_store store, ?_, ?_⟩
  · intro calls bookingId
    rw [runReads_store]
  · intro bookingId
    simp only [threaded_getBookingById]

/-- C25: the conflict test of `checkDateAvailability` is a closed-interval overlap test.
For a proposed range `[s, e]` with `s ≤ e` and a booking range `[bs, be]` with
`bs ≤ be`, the comparison of line 223 on the `Date` values holds exactly when the two
ranges share a calendar day; so over a store of such bookings the range is unavailable
exactly when some non-cancelled booking of the car shares a day with it. -/
theorem conflict_test_iff_common_day (store : List Booking) (carId : String) (s e : Int)
    (hse : s ≤ e) (hstore : ∀ b ∈ store, b.startDate ≤ b.endDate) :
    (∀ bs be : Int, bs ≤ be →
        ((newDate s ≤ newDate be ∧ newDate e ≥ newDate bs) ↔
          ∃ d, s ≤ d ∧ d ≤ e ∧ bs ≤ d ∧ d ≤ be)) ∧
      ((checkDateAvailability store carId s e).available = false ↔
        ∃ b ∈ store, b.carId = carId ∧ b.status ≠ "cancelled" ∧
          ∃ d, s ≤ d ∧ d ≤ e ∧ b.startDate ≤ d ∧ d ≤ b.endDate) := by
  constructor
  · intro bs be hb
    rw [ge_iff_le, newDate_le_iff, newDate_le_iff]
    exact overlap_iff_common_day s e bs be hse hb
  · rw [unavailable_iff_aux]
    constructor
    · rintro ⟨b, hb, hc, hst, hov⟩
      exact ⟨b, hb, hc, hst,
        (overlap_iff_common_day s e b.startDate b.endDate hse (hstore b hb)).1 hov⟩
    · rintro ⟨b, hb, hc, hst, hd⟩
      exact ⟨b, hb, hc, hst,
        (overlap_iff_common_day s e b.startDate b.endDate hse (hstore b hb)).2 hd⟩

/-- Witness for C25: 2024-06-15 .. 2024-06-20 against the booking 2024-06-10 .. 2024-06-15
is unavailable, and the two ranges share the day 2024-06-15. -/
theorem conflict_test_iff_common_day_witness :
    (checkDateAvailability [juneBooking] "C1" 19889 19894).available = false ∧
      ∃ b ∈ [juneBooking], b.carId = "C1" ∧ b.status ≠ "cancelled" ∧
        ∃ d, (19889 : Int) ≤ d ∧ d ≤ 19894 ∧ b.startDate ≤ d ∧ d ≤ b.endDate :=
  have h := (conflict_test_iff_common_day [juneBooking] "C1" 19889 19894 (by decide)
    (by decide)).2
  ⟨by decide, h.1 (by decide)⟩

/-- C26: sequential check-then-create preserves the no-double-booking invariant.  In a
store without two overlapping non-cancelled bookings of one car, if
`checkDateAvailability` reports `[s, e]` (with `s ≤ e`) available for car `C`, then after
`createBooking` of a draft for `C` over `[s, e]` the store still has no two such
bookings, and a second check of `[s, e]` for `C` is unavailable when the draft is not
cancelled. -/
theorem check_then_create_preserves (store : List Booking) (now : Nat) (C : String)
    (s e : Int) (d : BookingData) (hinv : NoDoubleBooking store) (hse : s ≤ e)
    (hC : d.carId = C) (hs : d.startDate = s) (he : d.endDate = e)
    (hav : (checkDateAvailability store C s e).available = true) :
    NoDoubleBooking (createBooking store now d).1 ∧
      (d.status ≠ "cancelled" →
        (checkDateAvailability (createBooking store now d).1 C s e).available = false) := by
  subst hC hs he
  refine ⟨noDoubleBooking_createBooking store now d hinv hav, ?_⟩
  intro hst
  rw [unavailable_iff_aux]
  refine ⟨newBooking (mkBookingId now) d, ?_, rfl, hst, hse, hse⟩
  rw [createBooking_store]
  simp

/-- Witness for C26: with the July booking 2024-07-01 .. 2024-07-03 of `C2` stored, the
range 2024-07-04 .. 2024-07-06 is available, and after booking it, it is not. -/
theorem check_then_create_preserves_witness :
    NoDoubleBooking julyStore ∧
      (checkDateAvailability julyStore "C2" 19908 19910).available = true ∧
      NoDoubleBooking (createBooking julyStore 1719000060001 laterDraft).1 ∧
      (checkDateAvailability (createBooking julyStore 1719000060001 laterDraft).1
        "C2" 19908 19910).available = false :=
  have h := check_then_create_preserves julyStore 1719000060001 "C2" 19908 19910 laterDraft
    (by decide) (by decide) rfl rfl rfl (by decide)
  ⟨by decide, by decide, h.1, h.2 (by decide)⟩

/-- C27: a successful `updateBookingStatus` changes only the `status` and `updatedAt`
fields of the first record with that id: every other field of that record, every other
record, and the number and order of the records are as before the call. -/
theorem updateBookingStatus_frame (store : List Booking) (now : Nat)
    (bookingId status : String)
    (hs : (updateBookingStatus store now bookingId status).2.success = true) :
    ∃ l1 b l2 b', store = l1 ++ b :: l2 ∧ (∀ x ∈ l1, x.id ≠ bookingId) ∧ b.id = bookingId ∧
      (updateBookingStatus store now bookingId status).1 = l1 ++ b' :: l2 ∧
      (updateBookingStatus store now bookingId status).1.length = store.length ∧
      b'.status = status ∧ b'.updatedAt = some now ∧
      b'.id = b.id ∧ b'.userId = b.userId ∧ b'.carId = b.carId ∧
      b'.carDetails = b.carDetails ∧ b'.tripDetails = b.tripDetails ∧
      b'.startDate = b.startDate ∧ b'.endDate = b.endDate ∧ b'.days = b.days ∧
      b'.totalPrice = b.totalPrice ∧ b'.notes = b.notes ∧ b'.createdAt = b.createdAt := by
  have hex : ∃ b ∈ store, b.id = bookingId := by
    by_contra h
    rw [updateBookingStatus_absent store now bookingId status
      (fun b hb hid => h ⟨b, hb, hid⟩)] at hs
    simp at hs
  obtain ⟨l1, b, l2, hsplit, hl1, hb, heq⟩ :=
    updateBookingStatus_found store now bookingId status hex
  refine ⟨l1, b, l2, setStatus b status now, hsplit, hl1, hb, by rw [heq], ?_, rfl, rfl,
    rfl, rfl, rfl, rfl, rfl, rfl, rfl, rfl, rfl, rfl, rfl⟩
  rw [heq, hsplit]
  simp

/-- Witness for C27: setting the second of the two July bookings to `ready`. -/
theorem updateBookingStatus_frame_witness :
    ∃ l1 b l2 b', checkedStore = l1 ++ b :: l2 ∧
      (∀ x ∈ l1, x.id ≠ "booking-1719000060001") ∧ b.id = "booking-1719000060001" ∧
      (updateBookingStatus checkedStore 1719000070000 "booking-1719000060001" "ready").1
        = l1 ++ b' :: l2 ∧
      (updateBookingStatus checkedStore 1719000070000 "booking-1719000060001" "ready").1.length
        = checkedStore.length ∧
      b'.status = "ready" ∧ b'.updatedAt = some 1719000070000 ∧
      b'.id = b.id ∧ b'.userId = b.userId ∧ b'.carId = b.carId ∧
      b'.carDetails = b.carDetails ∧ b'.tripDetails = b.tripDetails ∧
      b'.startDate = b.startDate ∧ b'.endDate = b.endDate ∧ b'.days = b.days ∧
      b'.totalPrice = b.totalPrice ∧ b'.notes = b.notes ∧ b'.createdAt = b.createdAt :=
  updateBookingStatus_frame checkedStore 1719000070000 "booking-1719000060001" "ready"
    (by decide)

/-- C28: `cancelBooking` has the same result and the same effect on the store as
`updateBookingStatus` with the status `cancelled`: for an existing id the first record
with the id becomes cancelled and stamped, and for an absent id the result is
`Booking not found` and the store is unchanged. -/
theorem cancelBooking_eq_updateBookingStatus (store : List Booking) (now : Nat)
    (bookingId : String) :
    cancelBooking store now bookingId = updateBookingStatus store now bookingId "cancelled" ∧
      ((∃ b ∈ store, b.id = bookingId) →
        ∃ l1 b l2, store = l1 ++ b :: l2 ∧ (∀ x ∈ l1, x.id ≠ bookingId) ∧ b.id = bookingId ∧
          cancelBooking store now bookingId =
            (l1 ++ setStatus b "cancelled" now :: l2, { success := true, error := none })) ∧
      ((¬ ∃ b ∈ store, b.id = bookingId) →
        cancelBooking store now bookingId =
          (store, { success := false, error := some "Booking not found" })) := by
  refine ⟨rfl, ?_, ?_⟩
  · intro h
    exact updateBookingStatus_found store now bookingId "cancelled" h
  · intro h
    exact updateBookingStatus_absent store now bookingId "cancelled"
      (fun b hb hid => h ⟨b, hb, hid⟩)

/-- Witness for C28: cancelling the June booking, and cancelling an unknown id. -/
theorem cancelBooking_eq_updateBookingStatus_witness :
    cancelBooking [juneBooking] 1717000005000 "booking-1717000000000" =
        ([setStatus juneBooking "cancelled" 1717000005000],
          { success := true, error := none }) ∧
      updateBookingStatus [juneBooking] 1717000005000 "booking-1717000000000" "cancelled" =
        ([setStatus juneBooking "cancelled" 1717000005000],
          { success := true, error := none }) ∧
      cancelBooking [juneBooking] 1717000005000 "booking-0" =
        ([juneBooking], { success := false, error := some "Booking not found" }) :=
  have h := cancelBooking_eq_updateBookingStatus [juneBooking] 1717000005000
    "booking-1717000000000"
  ⟨by decide, h.1 ▸ (by decide),
    (cancelBooking_eq_updateBookingStatus [juneBooking] 1717000005000 "booking-0").2.2
      (by decide)⟩

/-- C29: availability is monotone in the range and anti-monotone in the store.  A range
inside an available range is available, and a range that is unavailable stays
unavailable after one further `createBooking` and after any sequence of them. -/
theorem availability_monotone (store : List Booking) (C : String) (s e : Int) :
    (∀ s' e', (checkDateAvailability store C s e).available = true →
        s ≤ s' → s' ≤ e' → e' ≤ e →
        (checkDateAvailability store C s' e').available = true) ∧
      (∀ now d, (checkDateAvailability store C s e).available = false →
        (checkDateAvailability (createBooking store now d).1 C s e).available = false) ∧
      (∀ calls : List (Nat × BookingData),
        (checkDateAvailability store C s e).available = false →
        (checkDateAvailability
          (calls.foldl (fun st c => (createBooking st c.1 c.2).1) store) C s e).available
          = false) := by
  refine ⟨?_, ?_, ?_⟩
  · intro s' e' hav hs _ he
    rw [available_iff_aux] at hav ⊢
    intro b hb hc hst hov
    exact hav b hb hc hst ⟨le_trans hs hov.1, le_trans hov.2 he⟩
  · intro now d hun
    rw [unavailable_iff_aux] at hun ⊢
    obtain ⟨b, hb, hrest⟩ := hun
    exact ⟨b, by rw [createBooking_store]; exact List.mem_append_left _ hb, hrest⟩
  · intro calls hun
    rw [unavailable_iff_aux] at hun ⊢
    obtain ⟨b, hb, hrest⟩ := hun
    exact ⟨b, by rw [foldl_createBooking]; exact List.mem_append_left _ hb, hrest⟩

/-- Witness for C29: with the booking 2024-06-10 .. 2024-06-15 of `C1` stored, the range
2024-06-16 .. 2024-06-20 is available and so is 2024-06-17 .. 2024-06-19; the range
2024-06-15 .. 2024-06-20 is unavailable and stays so after another booking is created. -/
theorem availability_monotone_witness :
    (checkDateAvailability [juneBooking] "C1" 19890 19894).available = true ∧
      (checkDateAvailability [juneBooking] "C1" 19891 19893).available = true ∧
      (checkDateAvailability [juneBooking] "C1" 19889 19894).available = false ∧
      (checkDateAvailability (createBooking [juneBooking] 1719000000001 julyDraft).1
        "C1" 19889 19894).available = false :=
  ⟨by decide,
    (availability_monotone [juneBooking] "C1" 19890 19894).1 19891 19893 (by decide)
      (by decide) (by decide) (by decide),
    by decide,
    (availability_monotone [juneBooking] "C1" 19889 19894).2.1 1719000000001 julyDraft
      (by decide)⟩

/-- C30: `carService.checkAvailability` returns `available = true` for every car and
range; the booking store is not among its inputs, and it answers `true` also for the car
and range for which `bookingService.checkDateAvailability` reports a conflict. -/
theorem carService_checkAvailability_always_available :
    (∀ (carId : String) (startDate endDate : Int),
        carService.checkAvailability carId startDate endDate =
          { available := true, error := none }) ∧
      (∀ (store : List Booking) (carId : String) (startDate endDate : Int),
        (carService.checkAvailability carId startDate endDate).available = true ∧
          ((checkDateAvailability store carId startDate endDate).available = false →
            (carService.checkAvailability carId startDate endDate).available ≠
              (checkDateAvailability store carId startDate endDate).available)) ∧
      (checkDateAvailability [juneBooking] "C1" 19884 19889).available = false ∧
      (carService.checkAvailability "C1" 19884 19889).available = true := by
  refine ⟨fun _ _ _ => rfl, ?_, by decide, rfl⟩
  intro store carId startDate endDate
  refine ⟨rfl, ?_⟩
  intro h
  rw [h]
  exact Bool.noConfusion

end CarRental
